import Mathlib

/-!
Verification development for the multi-exchange trading gateway
(`ai-trading`): a shallow embedding, in Lean 4, of the XT request-signing
scheme, the exchange adapters' portfolio normalization, the XT order
validator and balance checker, the router-level order-type validation and
the combined-portfolio aggregation, together with theorems about them.

Modelling conventions:
* JavaScript numbers are modelled as exact rationals (`ℚ`); user-facing
  decimal literals are modelled by `Dec` (mantissa and decimal places),
  mirroring a canonically rendered decimal string such as "0.01".
* A JavaScript value that may be `undefined`/`null` is an `Option`.
* JavaScript objects used as string-keyed maps are association lists in
  insertion order.
* `toLowerCase`/`toUpperCase`/`localeCompare` are modelled on ASCII, which
  is the alphabet the service actually uses for currency codes, symbols
  and query keys.
* Strings that interpolate numbers (JavaScript float rendering) are
  modelled by structured error values carrying the same data.
* `async` exchange calls are modelled by explicit outcome values: a
  response payload, a non-success native code, or a thrown exception
  (carrying its message), supplied as an oracle argument.
-/

/-! ## ASCII string helpers (JS `toLowerCase`, `toUpperCase`, `localeCompare`) -/

/-- ASCII lower-casing of one character, as JS `toLowerCase` does on ASCII. -/
def lowerChar (c : Char) : Char :=
  if 65 ≤ c.toNat ∧ c.toNat ≤ 90 then Char.ofNat (c.toNat + 32) else c

/-- ASCII upper-casing of one character, as JS `toUpperCase` does on ASCII. -/
def upperChar (c : Char) : Char :=
  if 97 ≤ c.toNat ∧ c.toNat ≤ 122 then Char.ofNat (c.toNat - 32) else c

/-- JS `s.toLowerCase()` on ASCII strings. -/
def asciiLower (s : String) : String := ⟨s.data.map lowerChar⟩

/-- JS `s.toUpperCase()` on ASCII strings. -/
def asciiUpper (s : String) : String := ⟨s.data.map upperChar⟩

/-- Lexicographic comparison of character lists by code point, the ASCII
behaviour of JS `a.localeCompare(b) ≤ 0`. -/
def lexLe : List Char → List Char → Bool
  | [], _ => true
  | _ :: _, [] => false
  | c :: cs, d :: ds =>
    if c.toNat < d.toNat then true
    else if d.toNat < c.toNat then false
    else lexLe cs ds

/-- String comparison used to sort query-parameter keys. -/
def strLe (a b : String) : Bool := lexLe a.data b.data

/-! ## Decimal numbers

`Dec m s` stands for the decimal number `m / 10^s`, written with exactly `s`
digits after the point; `s` is what
`x.toString().split('.')[1]?.length || 0` computes for a canonically
rendered decimal (no trailing zeros), the quantity the XT validator's
precision checks use. -/

structure Dec where
  mantissa : Int
  places : Nat
deriving Repr, DecidableEq

/-- Numeric value of a decimal literal. -/
def Dec.val (d : Dec) : ℚ := (d.mantissa : ℚ) / (10 : ℚ) ^ d.places

/-! ## Router-level order-type validation

From `src/middleware/validation.js` and the shared prologue of `buyOrder`
and `sellOrder` in `src/controllers/trading.controller.js`. -/

/-- A place-order request body.  `none` stands for an absent (or `null`)
field; `quantity` is `none` when absent or not a number. -/
structure OrderBody where
  symbol : Option String := none
  quantity : Option ℚ := none
  price : Option ℚ := none
  otype : Option String := none
  exchange : Option String := none

/-- `validateTradeRequest` middleware: `some` is an early 400 response. -/
def validateTradeRequest (b : OrderBody) : Option (Nat × String) :=
  match b.symbol with
  | none => some (400, "Symbol is required and must be a string")
  | some _ =>
    match b.quantity with
    | none => some (400, "Quantity is required and must be a positive number")
    | some q =>
      if q ≤ 0 then some (400, "Quantity is required and must be a positive number")
      else none

/-- `validateOrderType` middleware: rejects a truthy `type` outside
LIMIT/MARKET (case-insensitively). -/
def validateOrderType (b : OrderBody) : Option (Nat × String) :=
  match b.otype with
  | none => none
  | some t =>
    if t = "" then none
    else if asciiUpper t = "LIMIT" ∨ asciiUpper t = "MARKET" then none
    else some (400, "Invalid order type. Must be one of: LIMIT, MARKET")

/-- `(type || 'LIMIT').toString().toUpperCase()` with the destructuring
default `type = 'LIMIT'`. -/
def normalizedType (b : OrderBody) : String :=
  match b.otype with
  | none => "LIMIT"
  | some t => if t = "" then "LIMIT" else asciiUpper t

/-- The exchanges accepted by `validateExchange` in the controller. -/
def validExchanges : List String := ["xt", "bybit", "binance", "kucoin", "bitget"]

/-- Outcome of the adapter's `placeBuyOrder`/`placeSellOrder` call, as seen
by the controller: a success flag (plus opaque payload identifier). -/
structure AdapterCallResult where
  success : Bool
  payload : Nat := 0
deriving Repr, DecidableEq

/-- A shaped HTTP response from the trading router. -/
inductive RouterResp
  | err (status : Nat) (msg : String)
  | ok (status : Nat) (payload : Nat)
deriving Repr, DecidableEq

/-- The body of `buyOrder`/`sellOrder` after the middleware: order-type/price
validation, then exchange validation, then the credential check, then the
adapter call.  `hasCreds` abstracts `x-api-key`/`x-secret-key` presence and
`adapter` the adapter call's result (`201` on success, `400` otherwise). -/
def placeOrderController (b : OrderBody) (hasCreds : Bool)
    (adapter : AdapterCallResult) : RouterResp :=
  if normalizedType b = "LIMIT" ∧ b.price = none then
    .err 400 "Price is required for LIMIT orders"
  else if normalizedType b = "MARKET" ∧ b.price ≠ none then
    .err 400 "Do not send price for MARKET orders"
  else
    let exchange := b.exchange.getD "xt"
    if ¬ (asciiLower exchange ∈ validExchanges) then
      .err 400 "Invalid exchange. Must be one of: xt, bybit, binance, kucoin, bitget"
    else if ¬ hasCreds then
      .err 401 "API Key and Secret Key are required. Provide them in headers (x-api-key, x-secret-key) or request body (apiKey, secretKey)"
    else if adapter.success then .ok 201 adapter.payload
    else .err 400 "adapter error"

/-- The full `POST /buy` (resp. `/sell`) pipeline:
`validateTradeRequest`, `validateOrderType`, then the controller. -/
def placeOrderPipeline (b : OrderBody) (hasCreds : Bool)
    (adapter : AdapterCallResult) : RouterResp :=
  match validateTradeRequest b with
  | some (s, m) => .err s m
  | none =>
    match validateOrderType b with
    | some (s, m) => .err s m
    | none => placeOrderController b hasCreds adapter

/-! ## Normalized portfolio entries and the combined-portfolio merge

From `getCombinedPortfolio` in `src/controllers/trading.controller.js`
(lines 252–279), and the per-adapter normalized entry shapes. -/

/-- A normalized balance entry as produced by an adapter's `getPortfolio`
(fields other than `currency`/`available`/`frozen`/`total` are optional,
exchange-specific extras; `exchanges` is added by the combined merge). -/
structure Asset where
  currency : String
  available : ℚ := 0
  frozen : ℚ := 0
  total : ℚ := 0
  currencyId : Option Nat := none
  usdValue : Option ℚ := none
  equity : Option ℚ := none
  convertBtcAmount : Option ℚ := none
  convertUsdtAmount : Option ℚ := none
  accountType : Option String := none
  assetType : Option String := none
  exchange : Option String := none
  exchanges : List String := []
deriving Repr, DecidableEq

/-- Case-insensitive currency key, `item.currency.toLowerCase()`. -/
def Asset.key (a : Asset) : String := asciiLower a.currency

/-- Folding one asset from exchange `ex` into the running combined list:
first entry with a case-insensitive currency match gets `total`,
`available`, `frozen` summed and `ex` appended to its `exchanges`;
otherwise a copy of the asset with `exchanges := [ex]` is pushed. -/
def mergeInto (item : Asset) (ex : String) (a : Asset) : Asset :=
  { item with
    total := item.total + a.total
    available := item.available + a.available
    frozen := item.frozen + a.frozen
    exchanges := item.exchanges ++ [ex] }

/-- One step of the combined merge: the first entry with a case-insensitive
currency match is updated by `mergeInto`; with no match, a copy of the asset
with `exchanges := [ex]` is pushed at the end. -/
def mergeAsset (ex : String) (a : Asset) : List Asset → List Asset
  | [] => [{ a with exchanges := [ex] }]
  | item :: rest =>
    if item.key = a.key then mergeInto item ex a :: rest
    else item :: mergeAsset ex a rest

/-- The nested `results.forEach(result => result.data.portfolio.forEach ...)`
merge, starting from the empty combined list. -/
def combinePortfolios (results : List (String × List Asset)) : List Asset :=
  results.foldl (fun acc r => r.2.foldl (fun c a => mergeAsset r.1 a c) acc) []

/-! ## The combined-portfolio controller -/

/-- Outcome of one exchange's `getPortfolio` call inside
`getCombinedPortfolio`: a successful normalized portfolio, a
`success:false` result with its error, or a thrown exception. -/
inductive PortfolioFetch
  | ok (portfolio : List Asset)
  | fail (error : String)
  | thrown (error : String)

/-- The combined-portfolio request: which per-exchange credential sets are
present (for KuCoin and Bitget this means key, secret and passphrase), and
each exchange's fetch outcome. -/
structure CombinedReq where
  hasXt : Bool := false
  hasBybit : Bool := false
  hasBinance : Bool := false
  hasKucoin : Bool := false
  hasBitget : Bool := false
  fetch : String → PortfolioFetch := fun _ => .fail ""

/-- The fixed credential-evaluation order of `getCombinedPortfolio`. -/
def credList (r : CombinedReq) : List (String × Bool) :=
  [("xt", r.hasXt), ("bybit", r.hasBybit), ("binance", r.hasBinance),
   ("kucoin", r.hasKucoin), ("bitget", r.hasBitget)]

/-- Accumulating `results` and `errors` over the per-exchange blocks. -/
def gather (r : CombinedReq) : List (String × List Asset) × List (String × String) :=
  (credList r).foldl
    (fun acc e =>
      if e.2 then
        match r.fetch e.1 with
        | .ok p => (acc.1 ++ [(e.1, p)], acc.2)
        | .fail m => (acc.1, acc.2 ++ [(e.1, m)])
        | .thrown m => (acc.1, acc.2 ++ [(e.1, m)])
      else acc)
    ([], [])

/-- The `requiredHeaders` hint returned on total failure. -/
def requiredHeaders : List String :=
  ["x-xt-api-key", "x-xt-secret-key", "x-bybit-api-key", "x-bybit-secret-key",
   "x-binance-api-key", "x-binance-secret-key", "x-kucoin-api-key",
   "x-kucoin-secret-key", "x-kucoin-passphrase", "x-bitget-api-key",
   "x-bitget-secret-key", "x-bitget-passphrase"]

/-- Response of the combined-portfolio endpoint. -/
inductive CombinedResp
  | failure (status : Nat) (error : String) (errors : List (String × String))
      (required : List String)
  | success (status : Nat) (combinedPortfolio : List Asset) (totalAssets : Nat)
      (errors : Option (List (String × String)))

/-- `getCombinedPortfolio`: 400 with the header hint when no exchange
produced a result, otherwise 200 with the merged portfolio and the error
list attached exactly when some exchange failed. -/
def getCombinedPortfolio (r : CombinedReq) : CombinedResp :=
  let res := gather r
  if res.1.isEmpty then
    .failure 400 "No valid exchange credentials provided" res.2 requiredHeaders
  else
    let combined := combinePortfolios res.1
    .success 200 combined combined.length
      (if res.2.isEmpty then none else some res.2)

/-- Whether exchange `e` produced a successful portfolio result in `r`. -/
def producedResult (r : CombinedReq) (e : String × Bool) : Bool :=
  e.2 && (match r.fetch e.1 with | .ok _ => true | _ => false)

/-- The `results` contribution of one exchange block. -/
def resOf (r : CombinedReq) (e : String × Bool) : Option (String × List Asset) :=
  if e.2 then
    match r.fetch e.1 with
    | .ok p => some (e.1, p)
    | _ => none
  else none

/-- The `errors` contribution of one exchange block. -/
def errOf (r : CombinedReq) (e : String × Bool) : Option (String × String) :=
  if e.2 then
    match r.fetch e.1 with
    | .ok _ => none
    | .fail m => some (e.1, m)
    | .thrown m => some (e.1, m)
  else none

/-- Bool test for the failure branch of the combined response. -/
def CombinedResp.isFailure : CombinedResp → Bool
  | .failure _ _ _ _ => true
  | .success _ _ _ _ => false

/-! ## Per-adapter portfolio normalization

One function per adapter, from the `getPortfolio` loops of
`xt.service.js`, `bybit.service.js`, `binance.service.js`,
`kucoin.service.js` and `bitget.service.js`.  Raw rows carry `Option ℚ`
fields: `none` is an absent (or falsy, hence skipped by `a || b || 0`)
field, `some x` a present field parsing to `x`. -/

/-- A raw XT balance row. -/
structure XtRawBalance where
  currency : String
  currencyId : Option Nat := none
  availableAmount : Option ℚ := none
  available : Option ℚ := none
  frozenAmount : Option ℚ := none
  frozen : Option ℚ := none
  freeze : Option ℚ := none
  totalAmount : Option ℚ := none
  convertBtcAmount : Option ℚ := none
  convertUsdtAmount : Option ℚ := none
deriving Repr, DecidableEq

/-- XT normalization: `parseFloat(availableAmount || available || 0)` etc.;
`parseFloat(totalAmount) || (available + frozen)` falls back when
`totalAmount` is absent, unparseable or `0`; rows with `total ≤ 0` are
dropped. -/
def xtPortfolio (rows : List XtRawBalance) : List Asset :=
  rows.filterMap fun b =>
    let available := ((b.availableAmount.orElse fun _ => b.available).getD 0)
    let frozen := (((b.frozenAmount.orElse fun _ => b.frozen).orElse fun _ => b.freeze).getD 0)
    let total :=
      match b.totalAmount with
      | some t => if t = 0 then available + frozen else t
      | none => available + frozen
    if 0 < total then
      some { currency := b.currency, currencyId := b.currencyId,
             available := available, frozen := frozen, total := total,
             convertBtcAmount := b.convertBtcAmount,
             convertUsdtAmount := b.convertUsdtAmount }
    else none

/-- A raw Bybit coin row inside a wallet-balance account object. -/
structure BybitCoin where
  coin : String
  walletBalance : Option ℚ := none
  usdValue : Option ℚ := none
  equity : Option ℚ := none
  locked : Option ℚ := none
deriving Repr, DecidableEq

/-- A raw Bybit account object (`coin = none` models a missing or
non-array `coin` field, which the loop skips). -/
structure BybitAccount where
  accountType : Option String := none
  coin : Option (List BybitCoin) := none
deriving Repr, DecidableEq

/-- The entries contributed by one Bybit account object: rows of its `coin`
array (skipped entirely when missing), kept when
`walletBalance > 0 || usdValue > 0 || equity > 0`, with
`total = walletBalance`, `available = walletBalance - locked`,
`frozen = locked`. -/
def bybitAccountEntries (accountType : String) (acct : BybitAccount) : List Asset :=
  match acct.coin with
  | none => []
  | some coins =>
    coins.filterMap fun cd =>
      let walletBalance := cd.walletBalance.getD 0
      let usdValue := cd.usdValue.getD 0
      let equity := cd.equity.getD 0
      let locked := cd.locked.getD 0
      if 0 < walletBalance ∨ 0 < usdValue ∨ 0 < equity then
        some { currency := cd.coin, available := walletBalance - locked,
               frozen := locked, total := walletBalance,
               usdValue := some usdValue, equity := some equity,
               exchange := some "bybit",
               accountType := some (acct.accountType.getD accountType) }
      else none

/-- Bybit normalization: the per-account entries pushed in order. -/
def bybitPortfolio (accounts : List BybitAccount) (accountType : String) : List Asset :=
  accounts.foldl (fun acc acct => acc ++ bybitAccountEntries accountType acct) []

/-- A raw Binance account balance row. -/
structure BinanceRawBalance where
  asset : String
  free : Option ℚ := none
  locked : Option ℚ := none
deriving Repr, DecidableEq

/-- Binance `getBalance` pre-filter: keep rows with
`parseFloat(free) > 0 || parseFloat(locked) > 0`. -/
def binanceBalanceFilter (rows : List BinanceRawBalance) : List BinanceRawBalance :=
  rows.filter fun b => decide (0 < b.free.getD 0) || decide (0 < b.locked.getD 0)

/-- Binance normalization over the pre-filtered rows: `total = free+locked`,
kept when positive; `usdValue` from the `<ASSET>USDT` price map when the
symbol has a price, else `0`. -/
def binancePortfolio (rows : List BinanceRawBalance) (prices : String → Option ℚ) :
    List Asset :=
  (binanceBalanceFilter rows).filterMap fun b =>
    let free := b.free.getD 0
    let locked := b.locked.getD 0
    let total := free + locked
    if 0 < total then
      some { currency := b.asset, available := free, frozen := locked,
             total := total,
             usdValue := some (match prices (b.asset ++ "USDT") with
               | some p => total * p
               | none => 0),
             exchange := some "binance" }
    else none

/-- A raw KuCoin account row (`ctype` is the JS `type` field:
main/trade/margin). -/
structure KucoinRawBalance where
  currency : String
  available : Option ℚ := none
  holds : Option ℚ := none
  balance : Option ℚ := none
  ctype : Option String := none
deriving Repr, DecidableEq

/-- KuCoin normalization: `total = balance`, kept when positive. -/
def kucoinPortfolio (rows : List KucoinRawBalance) : List Asset :=
  rows.filterMap fun b =>
    let available := b.available.getD 0
    let holds := b.holds.getD 0
    let total := b.balance.getD 0
    if 0 < total then
      some { currency := b.currency, available := available, frozen := holds,
             total := total, assetType := b.ctype, exchange := some "kucoin" }
    else none

/-- A raw Bitget spot-account row. -/
structure BitgetRawBalance where
  coin : Option String := none
  coinName : Option String := none
  available : Option ℚ := none
  frozen : Option ℚ := none
  lock : Option ℚ := none
  usdtValue : Option ℚ := none
deriving Repr, DecidableEq

/-- Bitget normalization: `frozen = frozen || lock`,
`total = available + frozen`, kept when positive. -/
def bitgetPortfolio (rows : List BitgetRawBalance) : List Asset :=
  rows.filterMap fun b =>
    let available := b.available.getD 0
    let frozen := ((b.frozen.orElse fun _ => b.lock).getD 0)
    let total := available + frozen
    if 0 < total then
      some { currency := ((b.coin.orElse fun _ => b.coinName).getD ""),
             available := available, frozen := frozen, total := total,
             usdValue := some (b.usdtValue.getD 0),
             exchange := some "bitget" }
    else none

/-! ## XT order validation, balance check and order placement

From `validateOrder`, `checkBalance`, `placeBuyOrder`, `placeSellOrder` and
`mapErrorCode` in `src/services/xt.service.js`. -/

/-- XT symbol metadata used by the validator (`none` models an absent or
falsy field, whose check the code skips). -/
structure SymbolInfo where
  symbol : String
  minQty : Option ℚ := none
  minNotional : Option ℚ := none
  basePrecision : Option Nat := none
  pricePrecision : Option Nat := none
deriving Repr, DecidableEq

/-- The validator's error messages, carrying the interpolated numbers. -/
inductive XtValidationError
  | invalidSymbol
  | invalidPrice
  | qtyBelowMin (qty minQty : ℚ)
  | totalBelowMinNotional (total minNotional : ℚ)
  | qtyPrecisionExceeded (places precision : Nat)
  | pricePrecisionExceeded (places precision : Nat)
  | amountBelowMinNotional (amount minNotional : ℚ)
deriving Repr, DecidableEq

structure XtValidationResult where
  valid : Bool
  errors : List XtValidationError
deriving Repr, DecidableEq

/-- The min-quantity check: one error pushed when violated, skipped when
`minQty` is absent. -/
def minQtyErrors (minQty : Option ℚ) (qty : ℚ) : List XtValidationError :=
  match minQty with
  | some mq => if qty < mq then [.qtyBelowMin qty mq] else []
  | none => []

/-- The LIMIT min-notional check on `total = qty*price`. -/
def minNotionalErrors (minNotional : Option ℚ) (total : ℚ) : List XtValidationError :=
  match minNotional with
  | some mn => if total < mn then [.totalBelowMinNotional total mn] else []
  | none => []

/-- The quantity-precision check on the quantity's decimal places. -/
def basePrecisionErrors (basePrecision : Option Nat) (places : Nat) :
    List XtValidationError :=
  match basePrecision with
  | some bp => if bp < places then [.qtyPrecisionExceeded places bp] else []
  | none => []

/-- The price-precision check on the price's decimal places. -/
def pricePrecisionErrors (pricePrecision : Option Nat) (places : Nat) :
    List XtValidationError :=
  match pricePrecision with
  | some pp => if pp < places then [.pricePrecisionExceeded places pp] else []
  | none => []

/-- The MARKET amount check against the min notional. -/
def marketAmountErrors (minNotional : Option ℚ) (amount : ℚ) : List XtValidationError :=
  match minNotional with
  | some mn => if amount < mn then [.amountBelowMinNotional amount mn] else []
  | none => []

/-- `validateOrder(symbolInfo, quantity, price, type)`: LIMIT orders check
min quantity, min notional and both precisions, accumulating all violated
rules; MARKET orders check the amount against the min notional. -/
def validateOrder (symbolInfo : Option SymbolInfo) (quantity : Dec)
    (price : Option Dec) (otype : String) : XtValidationResult :=
  match symbolInfo with
  | none => ⟨false, [.invalidSymbol]⟩
  | some si =>
    if otype = "LIMIT" then
      match price with
      | none => ⟨false, [.invalidPrice]⟩
      | some p =>
        if p.val ≤ 0 then ⟨false, [.invalidPrice]⟩
        else
          let errors :=
            minQtyErrors si.minQty quantity.val ++
            minNotionalErrors si.minNotional (quantity.val * p.val) ++
            basePrecisionErrors si.basePrecision quantity.places ++
            pricePrecisionErrors si.pricePrecision p.places
          ⟨errors.isEmpty, errors⟩
    else if otype = "MARKET" then
      let errors := marketAmountErrors si.minNotional quantity.val
      ⟨errors.isEmpty, errors⟩
    else ⟨true, []⟩

/-- Symbol metadata of the documented scenario: `minNotional = 5`, with a
tiny `minQty` and wide precisions. -/
def scenarioSymbolInfo : SymbolInfo :=
  { symbol := "btc_usdt", minQty := some ((1 : ℚ) / 1000000),
    minNotional := some 5, basePrecision := some 8, pricePrecision := some 2 }

/-- The result of the XT `getBalance` call as `checkBalance` consumes it:
a success flag and the raw balance rows. -/
structure XtBalanceResult where
  success : Bool
  data : List XtRawBalance := []
deriving Repr

/-- `parseFloat(balance?.availableAmount || balance?.available || 0)` for
the row matching `currency` case-insensitively. -/
def availableOf (balRes : XtBalanceResult) (currency : String) : ℚ :=
  ((balRes.data.find? fun b => asciiLower b.currency == asciiLower currency).bind
    fun b => b.availableAmount.orElse fun _ => b.available).getD 0

structure BalanceCheck where
  sufficient : Bool
  available : ℚ
  required : ℚ
  currency : Option String := none
deriving Repr, DecidableEq

/-- `checkBalance(quoteCurrency, requiredAmount, ...)`: a failed balance
fetch yields `sufficient:false, available:0`; otherwise the live available
balance of the currency is compared with the required amount. -/
def checkBalance (quoteCurrency : String) (requiredAmount : ℚ)
    (balRes : XtBalanceResult) : BalanceCheck :=
  if balRes.success then
    { sufficient := decide (requiredAmount ≤ availableOf balRes quoteCurrency),
      available := availableOf balRes quoteCurrency,
      required := requiredAmount,
      currency := some quoteCurrency }
  else
    { sufficient := false, available := 0, required := requiredAmount }

/-- `symbol.split('_')[1] || 'usdt'`. -/
def quoteCurrencyOf (symbol : String) : String :=
  match (symbol.splitOn "_").get? 1 with
  | some s => if s = "" then "usdt" else s
  | none => "usdt"

/-- `symbol.split('_')[0] || 'btc'`. -/
def baseCurrencyOf (symbol : String) : String :=
  match (symbol.splitOn "_").get? 0 with
  | some s => if s = "" then "btc" else s
  | none => "btc"

/-- The BUY-side minimum reserve: 1 unit when the quote currency is USDT. -/
def xtMinReserve (quoteCurrency : String) : ℚ :=
  if asciiLower quoteCurrency = "usdt" then 1 else 0

/-- `mapErrorCode(errorCode, params)` from `xt.service.js`. -/
def mapErrorCode (errorCode : String) (params : List String) : String :=
  if errorCode = "ORDER_008" then "Invalid order parameters or constraints violated"
  else if errorCode = "ORDER_F0301" then
    match params with
    | [] => "Insufficient balance"
    | p0 :: rest =>
      "Insufficient balance. Exchange requires minimum " ++ p0 ++ " " ++
        (rest.headD "undefined") ++ " to remain in account"
  else if errorCode = "ORDER_F0302" then "Order price out of range"
  else if errorCode = "ORDER_F0303" then "Order quantity out of range"
  else if errorCode = "ORDER_F0304" then "Order value too small"
  else if errorCode = "ORDER_F0305" then "Order value too large"
  else errorCode

/-- Outcome of the signed `/v4/order` HTTP call: a response with its native
`rc`/`mc`/`ma` fields, or a thrown exception (with message). -/
inductive XtApiOutcome
  | resp (rc : Int) (mc : String) (ma : List String)
  | thrown (message : String)
deriving Repr, DecidableEq

/-- Structured error of an XT order attempt (the JS code renders these into
interpolated message strings). -/
inductive XtOrderError
  | validationFailed (errors : List XtValidationError)
  | insufficientBalance (currency : String) (orderAmount reserve totalRequired available : ℚ)
  | insufficientSellBalance (currency : String) (required available : ℚ)
  | exchangeRejected (message : String) (mc : String) (rc : Int)
  | thrownError (message : String)
deriving Repr, DecidableEq

structure XtOrderResult where
  success : Bool
  error : Option XtOrderError := none
  balanceCheck : Option BalanceCheck := none
deriving Repr, DecidableEq

/-- Handling of the `/v4/order` response shared by buy and sell: map the
native code on `rc ≠ 0`, convert a thrown error to the fallback envelope. -/
def xtSubmitOrder (out : XtApiOutcome) (fallback : String) : XtOrderResult :=
  match out with
  | .thrown m =>
    { success := false, error := some (.thrownError (if m = "" then fallback else m)) }
  | .resp rc mc ma =>
    if rc ≠ 0 then
      { success := false, error := some (.exchangeRejected (mapErrorCode mc ma) mc rc) }
    else { success := true }

/-- Oracle for one XT order placement: the symbol metadata lookup result
(`none` = symbol not found or symbols fetch failed), the balance fetch
result and the order submission outcome. -/
structure XtOrderOracle where
  symbolInfo : Option SymbolInfo := none
  balance : XtBalanceResult := ⟨false, []⟩
  submit : XtApiOutcome := .thrown ""

/-- `placeBuyOrder(symbol, quantity, price, type, ...)`: validate, compute
the quote-currency order total (LIMIT: `quantity*price` when price is
truthy; MARKET: `quantity`), add the minimum reserve, check the balance and
reject before submission when insufficient; otherwise submit. -/
def placeBuyOrder (symbol : String) (quantity : Dec) (price : Option Dec)
    (otype : String) (o : XtOrderOracle) : XtOrderResult :=
  let validation := validateOrder o.symbolInfo quantity price otype
  if ¬ validation.valid then
    { success := false, error := some (.validationFailed validation.errors) }
  else
    let quoteCurrency := quoteCurrencyOf symbol
    let orderTotal : Option ℚ :=
      if asciiUpper otype = "LIMIT" then
        match price with
        | some p => if p.val = 0 then none else some (quantity.val * p.val)
        | none => none
      else if asciiUpper otype = "MARKET" then some quantity.val
      else none
    match orderTotal with
    | some t =>
      if t ≠ 0 then
        let minReserve := xtMinReserve quoteCurrency
        let totalRequired := t + minReserve
        let bc := checkBalance quoteCurrency totalRequired o.balance
        if ¬ bc.sufficient then
          { success := false,
            error := some (.insufficientBalance quoteCurrency t minReserve totalRequired bc.available),
            balanceCheck := some bc }
        else xtSubmitOrder o.submit "Failed to place buy order"
      else xtSubmitOrder o.submit "Failed to place buy order"
    | none => xtSubmitOrder o.submit "Failed to place buy order"

/-- `placeSellOrder`: validate, then check that the base currency balance
covers the quantity, rejecting before submission when insufficient. -/
def placeSellOrder (symbol : String) (quantity : Dec) (price : Option Dec)
    (otype : String) (o : XtOrderOracle) : XtOrderResult :=
  let validation := validateOrder o.symbolInfo quantity price otype
  if ¬ validation.valid then
    { success := false, error := some (.validationFailed validation.errors) }
  else
    let baseCurrency := baseCurrencyOf symbol
    let bc := checkBalance baseCurrency quantity.val o.balance
    if ¬ bc.sufficient then
      { success := false,
        error := some (.insufficientSellBalance baseCurrency bc.required bc.available),
        balanceCheck := some bc }
    else xtSubmitOrder o.submit "Failed to place sell order"

/-! ## Adapter result envelopes

Each adapter method wraps its whole body in `try/catch`: the outcome of the
underlying exchange call is either a response (checked against the native
success code) or a thrown exception, and both are converted into a
`success`-flagged envelope.  From the method bodies of `xt.service.js`,
`bybit.service.js`, `binance.service.js`, `kucoin.service.js`,
`bitget.service.js`. -/

/-- Result envelope of an adapter call on an exchange with integer native
codes (XT `rc`, Bybit `retCode`). -/
structure IntCodeResult where
  success : Bool
  error : Option String := none
  code : Option Int := none
deriving Repr, DecidableEq

/-- Result envelope on an exchange with string native codes (KuCoin
`code`, Bitget `code`), plus Binance's classification extras. -/
structure StrCodeResult where
  success : Bool
  error : Option String := none
  code : Option String := none
  originalError : Option String := none
  help : Option String := none
deriving Repr, DecidableEq

/-- Outcome of an exchange HTTP call with integer native codes. -/
inductive IntCodeOutcome
  | resp (rc : Int) (mc : String)
  | thrown (message : String)
deriving Repr, DecidableEq

/-- Outcome of an exchange call with string native codes. -/
inductive StrCodeOutcome
  | resp (code : String) (msg : String)
  | thrown (message : String)
deriving Repr, DecidableEq

/-- The XT response handling common to `cancelOrder`, `getOrderHistory`,
`getTicker`, `getSymbols`, `getDepth`: non-zero `rc` maps to
`{success:false, error: mc || fallback, code: rc}`, a thrown error to
`{success:false, error: message || fallback}`. -/
def xtEnvelope (fallback : String) (out : IntCodeOutcome) : IntCodeResult :=
  match out with
  | .thrown m => { success := false, error := some (if m = "" then fallback else m) }
  | .resp rc mc =>
    if rc ≠ 0 then
      { success := false, error := some (if mc = "" then fallback else mc), code := some rc }
    else { success := true }

def xtCancelOrder : IntCodeOutcome → IntCodeResult := xtEnvelope "Failed to cancel order"

def xtGetOrderHistory : IntCodeOutcome → IntCodeResult :=
  xtEnvelope "Failed to fetch order history"

def xtGetTicker : IntCodeOutcome → IntCodeResult := xtEnvelope "Failed to fetch ticker"

def xtGetSymbols : IntCodeOutcome → IntCodeResult := xtEnvelope "Failed to fetch symbols"

def xtGetDepth : IntCodeOutcome → IntCodeResult := xtEnvelope "Failed to fetch depth"

/-- The payload of a successful XT `/v4/balances` response: an array, an
object with an `assets` array (plus totals), or something else. -/
inductive XtBalancePayload
  | rows (rows : List XtRawBalance)
  | assetsObj (assets : List XtRawBalance) (totalUsdtAmount totalBtcAmount : Option ℚ)
  | nonArray
deriving Repr

/-- Outcome of the signed `/v4/balances` call. -/
inductive XtBalanceOutcome
  | resp (rc : Int) (mc : String) (result : Option XtBalancePayload)
  | thrown (message : String)

/-- Full result of XT `getBalance` (the metadata totals ride along). -/
structure XtGetBalanceResult where
  success : Bool
  data : List XtRawBalance := []
  totalUsdtAmount : Option ℚ := none
  totalBtcAmount : Option ℚ := none
  error : Option String := none
  code : Option Int := none

/-- XT `getBalance`: check `rc`, then coerce the payload to an array
(wrapping an `assets` object, dropping anything else). -/
def xtGetBalance (out : XtBalanceOutcome) : XtGetBalanceResult :=
  match out with
  | .thrown m =>
    { success := false, error := some (if m = "" then "Failed to fetch balance" else m) }
  | .resp rc mc result =>
    if rc ≠ 0 then
      { success := false,
        error := some (if mc = "" then "Failed to fetch balance" else mc),
        code := some rc }
    else
      match result with
      | none => { success := true }
      | some (.rows l) => { success := true, data := l }
      | some (.assetsObj assets u b) =>
        { success := true, data := assets, totalUsdtAmount := u, totalBtcAmount := b }
      | some .nonArray => { success := true }

/-- Result of XT `getPortfolio`. -/
structure XtPortfolioResult where
  success : Bool
  portfolio : List Asset := []
  totalAssets : Nat := 0
  error : Option String := none
  code : Option Int := none

/-- XT `getPortfolio`: propagate a failed `getBalance` unchanged, otherwise
normalize with the zero-total filter. -/
def xtGetPortfolio (out : XtBalanceOutcome) : XtPortfolioResult :=
  let b := xtGetBalance out
  if ¬ b.success then { success := false, error := b.error, code := b.code }
  else
    let pf := xtPortfolio b.data
    { success := true, portfolio := pf, totalAssets := pf.length }

/-- The Bybit response handling (`retCode`/`retMsg`) shared by
`getBalance`, `submitOrder` and `cancelOrder`. -/
def bybitEnvelope (fallback : String) (out : IntCodeOutcome) : IntCodeResult :=
  match out with
  | .thrown m => { success := false, error := some (if m = "" then fallback else m) }
  | .resp retCode retMsg =>
    if retCode ≠ 0 then
      { success := false, error := some (if retMsg = "" then fallback else retMsg),
        code := some retCode }
    else { success := true }

def bybitGetBalance : IntCodeOutcome → IntCodeResult :=
  bybitEnvelope "Failed to fetch balance"

def bybitPlaceBuyOrder : IntCodeOutcome → IntCodeResult :=
  bybitEnvelope "Failed to place buy order"

def bybitPlaceSellOrder : IntCodeOutcome → IntCodeResult :=
  bybitEnvelope "Failed to place sell order"

def bybitCancelOrder : IntCodeOutcome → IntCodeResult :=
  bybitEnvelope "Failed to cancel order"

/-- `needle.isPrefixOf haystack` on character lists. -/
def hasPrefixList : List Char → List Char → Bool
  | [], _ => true
  | _ :: _, [] => false
  | a :: as, b :: bs => a == b && hasPrefixList as bs

/-- Substring occurrence on character lists. -/
def hasSubList (needle : List Char) : List Char → Bool
  | [] => needle.isEmpty
  | b :: bs => hasPrefixList needle (b :: bs) || hasSubList needle bs

/-- JS `s.includes(sub)`. -/
def containsSub (s sub : String) : Bool := hasSubList sub.data s.data

/-- Outcome of a Binance library call, which throws on API errors. -/
inductive BinanceOutcome
  | ok
  | thrown (message : String)
deriving Repr, DecidableEq

/-- Binance's best-effort substring classification of order errors
(message and `help` hint), falling back to the raw message. -/
def binanceClassify (fallback m : String) : String × Option String :=
  if containsSub m "NOTIONAL" then
    ("Order value too small",
     some "Binance requires minimum $10 USD order value. Increase quantity or price.")
  else if containsSub m "LOT_SIZE" then
    ("Invalid quantity",
     some "Quantity must meet symbol's minimum/maximum/step size requirements.")
  else if containsSub m "PRICE_FILTER" then
    ("Invalid price",
     some "Price must meet symbol's minimum/maximum/tick size requirements.")
  else if containsSub m "MIN_NOTIONAL" then
    ("Order value too small", some "Order value must be at least $10 USD.")
  else if containsSub m "INSUFFICIENT" then
    ("Insufficient balance", some "Not enough funds in your account.")
  else (if m = "" then fallback else m, none)

/-- The plain Binance calls (`getBalance`, `cancelOrder`, `getOrderHistory`,
`getTicker`, `getSymbols`, `getDepth`, the portfolio fetch): the library
either returns or throws. -/
def binanceCall (fallback : String) (out : BinanceOutcome) : StrCodeResult :=
  match out with
  | .ok => { success := true }
  | .thrown m =>
    { success := false, error := some (if m = "" then fallback else m) }

/-- JS falsiness of an optional numeric `price`. -/
def priceFalsy : Option ℚ → Bool
  | none => true
  | some x => decide (x = 0)

/-- Binance `placeBuyOrder`/`placeSellOrder` (`fallback` differs per side):
LIMIT without a truthy price is rejected locally; a thrown API error is
classified by substring. -/
def binancePlaceOrder (fallback : String) (price : Option ℚ) (otype : String)
    (out : BinanceOutcome) : StrCodeResult :=
  if asciiUpper otype = "LIMIT" ∧ priceFalsy price then
    { success := false, error := some "Price is required for LIMIT orders" }
  else
    match out with
    | .ok => { success := true }
    | .thrown m =>
      let c := binanceClassify fallback m
      { success := false, error := some c.1, originalError := some m, help := c.2 }

/-- The KuCoin response handling (`code`/`msg`, success code "200000"). -/
def kucoinEnvelope (fallback : String) (out : StrCodeOutcome) : StrCodeResult :=
  match out with
  | .thrown m => { success := false, error := some (if m = "" then fallback else m) }
  | .resp code msg =>
    if code ≠ "200000" then
      { success := false, error := some (if msg = "" then fallback else msg),
        code := some code }
    else { success := true }

def kucoinGetBalance : StrCodeOutcome → StrCodeResult :=
  kucoinEnvelope "Failed to fetch balance"

def kucoinCancelOrder : StrCodeOutcome → StrCodeResult :=
  kucoinEnvelope "Failed to cancel order"

/-- KuCoin's substring classification of order-placement errors. -/
def kucoinClassify (fallback m : String) : String × Option String :=
  if containsSub m "400100" then
    ("Invalid parameters", some "Check symbol format, quantity, and price values.")
  else if containsSub m "200004" then
    ("Insufficient balance", some "Not enough funds in your trading account.")
  else if containsSub m "400350" then
    ("Order size too small", some "Order value must meet minimum requirements (usually $1).")
  else (if m = "" then fallback else m, none)

/-- KuCoin `placeBuyOrder`/`placeSellOrder`: LIMIT without a truthy price is
rejected locally; a non-success code or a classified thrown error otherwise. -/
def kucoinPlaceOrder (fallback : String) (price : Option ℚ) (otype : String)
    (out : StrCodeOutcome) : StrCodeResult :=
  if asciiUpper otype = "LIMIT" ∧ priceFalsy price then
    { success := false, error := some "Price is required for LIMIT orders" }
  else
    match out with
    | .resp code msg =>
      if code ≠ "200000" then
        { success := false, error := some (if msg = "" then fallback else msg),
          code := some code }
      else { success := true }
    | .thrown m =>
      let c := kucoinClassify fallback m
      { success := false, error := some c.1, originalError := some m, help := c.2 }

/-- The Bitget response handling (`code`/`msg`, success code "00000"). -/
def bitgetEnvelope (fallback : String) (out : StrCodeOutcome) : StrCodeResult :=
  match out with
  | .thrown m => { success := false, error := some (if m = "" then fallback else m) }
  | .resp code msg =>
    if code ≠ "00000" then
      { success := false, error := some (if msg = "" then fallback else msg),
        code := some code }
    else { success := true }

def bitgetGetBalance : StrCodeOutcome → StrCodeResult :=
  bitgetEnvelope "Failed to fetch balance"

def bitgetCancelOrder : StrCodeOutcome → StrCodeResult :=
  bitgetEnvelope "Failed to cancel order"

/-- Bitget's substring classification of order-placement errors. -/
def bitgetClassify (fallback m : String) : String × Option String :=
  if containsSub m "40007" then
    ("Insufficient balance", some "Not enough funds in your spot account.")
  else if containsSub m "40008" then
    ("Order size too small", some "Order value must meet minimum requirements.")
  else if containsSub m "40009" then
    ("Invalid price", some "Price must be within allowed range.")
  else (if m = "" then fallback else m, none)

/-- Bitget `placeBuyOrder`/`placeSellOrder`: LIMIT without a truthy price is
rejected locally; a non-success code or a classified thrown error otherwise. -/
def bitgetPlaceOrder (fallback : String) (price : Option ℚ) (otype : String)
    (out : StrCodeOutcome) : StrCodeResult :=
  if asciiUpper otype = "LIMIT" ∧ priceFalsy price then
    { success := false, error := some "Price is required for LIMIT orders" }
  else
    match out with
    | .resp code msg =>
      if code ≠ "00000" then
        { success := false, error := some (if msg = "" then fallback else msg),
          code := some code }
      else { success := true }
    | .thrown m =>
      let c := bitgetClassify fallback m
      { success := false, error := some c.1, originalError := some m, help := c.2 }

/-! ## XT request signing

From `makeRequest`, `sortQueryParams` and `trimObject` in
`src/services/xt.service.js`.  A JS object passed as `query` or `body` is an
insertion-ordered association list; an entry's value is `none` when it is
`undefined`.  Primitive values are either strings or other primitives
carried by their JS string rendering. -/

/-- A primitive JSON value: a string, or another primitive (number,
boolean) represented by its JS rendering. -/
inductive JVal
  | jstr (s : String)
  | jraw (r : String)
deriving Repr, DecidableEq

/-- A JS object in insertion order; `none` values are `undefined`. -/
abbrev Obj : Type := List (String × Option JVal)

/-- `trimObject`: delete the `undefined`-valued keys. -/
def trimObject (o : Obj) : Obj := o.filter fun kv => kv.2.isSome

/-- Template-literal rendering `${value}` of a defined value. -/
def renderQueryVal : JVal → String
  | .jstr s => s
  | .jraw r => r

/-- JSON string escaping (the characters relevant here). -/
def escapeJsonChar (c : Char) : String :=
  if c = '"' then "\\\""
  else if c = '\\' then "\\\\"
  else if c = '\n' then "\\n"
  else if c = '\r' then "\\r"
  else if c = '\t' then "\\t"
  else String.singleton c

def escapeJson (s : String) : String := String.join (s.data.map escapeJsonChar)

/-- JSON rendering of a defined primitive value. -/
def renderJsonVal : JVal → String
  | .jstr s => "\"" ++ escapeJson s ++ "\""
  | .jraw r => r

def joinComma : List String → String
  | [] => ""
  | [x] => x
  | x :: xs => x ++ "," ++ joinComma xs

/-- `JSON.stringify` on an object: defined entries in insertion order
(undefined-valued keys are skipped by JSON.stringify). -/
def jsonStringify (o : Obj) : String :=
  "\x7b" ++
    joinComma (o.filterMap fun kv =>
      match kv.2 with
      | some v => some ("\"" ++ escapeJson kv.1 ++ "\":" ++ renderJsonVal v)
      | none => none) ++
  "\x7d"

/-- Stable insertion into a key-sorted list (JS `Array.sort` is stable). -/
def insertByKey (x : String × Option JVal) : Obj → Obj
  | [] => [x]
  | y :: ys => if strLe x.1 y.1 then x :: y :: ys else y :: insertByKey x ys

/-- `Object.keys(q).sort((a,b) => a.localeCompare(b))`, carried on the
entries: a stable sort by key. -/
def sortByKey (o : Obj) : Obj := o.foldr insertByKey []

/-- The accumulating step of `sortQueryParams`:
`sortResult += (sortResult && '&') + key + '=' + value`, skipping
`undefined` values. -/
def sqpStep (sortResult : String) (kv : String × Option JVal) : String :=
  match kv.2 with
  | none => sortResult
  | some v =>
    sortResult ++ (if sortResult = "" then "" else "&") ++ kv.1 ++ "=" ++ renderQueryVal v

/-- `sortQueryParams(queryObject)` from `xt.service.js`. -/
def sortQueryParams (queryObject : Obj) : String :=
  (sortByKey queryObject).foldl sqpStep ""

/-- The same accumulating step on an already-rendered `key=value` piece. -/
def sqpPieceStep (a p : String) : String := a ++ (if a = "" then "" else "&") ++ p

/-- `Array.prototype.join('&')`. -/
def joinAmp : List String → String
  | [] => ""
  | [x] => x
  | x :: xs => x ++ "&" ++ joinAmp xs

/-- The four signing headers, in order. -/
def headerPairsX (apiKey timestamp : String) : List (String × String) :=
  [("validate-algorithms", "HmacSHA256"), ("validate-appkey", apiKey),
   ("validate-recvwindow", "60000"), ("validate-timestamp", timestamp)]

/-- `X = headerPairs.map(t => t.join('=')).join('&')`. -/
def buildX (apiKey timestamp : String) : String :=
  joinAmp ((headerPairsX apiKey timestamp).map fun t => t.1 ++ "=" ++ t.2)

/-- `queryStr`: `#` plus the sorted query string when the trimmed query is
non-empty, else the empty string. -/
def queryString (query : Option Obj) : String :=
  match query with
  | none => ""
  | some q => if (trimObject q).length ≠ 0 then "#" ++ sortQueryParams q else ""

/-- `bodyStr`: `#` plus the JSON of the body when the trimmed body is
non-empty, else empty (`trimObject` mutates the body in place, so
`JSON.stringify` serializes the trimmed object). -/
def bodyString (body : Option Obj) : String :=
  match body with
  | none => ""
  | some b => if (trimObject b).length ≠ 0 then "#" ++ jsonStringify (trimObject b) else ""

/-- `Y = '#' + method + '#' + path + queryStr + bodyStr`. -/
def buildY (method path : String) (query body : Option Obj) : String :=
  "#" ++ method ++ "#" ++ path ++ queryString query ++ bodyString body

/-! ### SHA-256 and HMAC (crypto.createHmac('sha256', key)), over byte
lists (`Nat` values < 256), words as `Nat` mod `2^32`. -/

/-- Truncation to a 32-bit word. -/
def w32 (n : Nat) : Nat := n % 4294967296

/-- 32-bit right rotation. -/
def rotr (n w : Nat) : Nat := w32 ((w >>> n) ||| (w <<< (32 - n)))

def ssig0 (x : Nat) : Nat := (rotr 7 x) ^^^ (rotr 18 x) ^^^ (x >>> 3)

def ssig1 (x : Nat) : Nat := (rotr 17 x) ^^^ (rotr 19 x) ^^^ (x >>> 10)

def bsig0 (x : Nat) : Nat := (rotr 2 x) ^^^ (rotr 13 x) ^^^ (rotr 22 x)

def bsig1 (x : Nat) : Nat := (rotr 6 x) ^^^ (rotr 11 x) ^^^ (rotr 25 x)

/-- The SHA-256 round constants (decimal). -/
def shaK : List Nat :=
  [1116352408, 1899447441, 3049323471, 3921009573,
   961987163, 1508970993, 2453635748, 2870763221,
   3624381080, 310598401, 607225278, 1426881987,
   1925078388, 2162078206, 2614888103, 3248222580,
   3835390401, 4022224774, 264347078, 604807628,
   770255983, 1249150122, 1555081692, 1996064986,
   2554220882, 2821834349, 2952996808, 3210313671,
   3336571891, 3584528711, 113926993, 338241895,
   666307205, 773529912, 1294757372, 1396182291,
   1695183700, 1986661051, 2177026350, 2456956037,
   2730485921, 2820302411, 3259730800, 3345764771,
   3516065817, 3600352804, 4094571909, 275423344,
   430227734, 506948616, 659060556, 883997877,
   958139571, 1322822218, 1537002063, 1747873779,
   1955562222, 2024104815, 2227730452, 2361852424,
   2428436474, 2756734187, 3204031479, 3329325298]

/-- The SHA-256 initial hash values (decimal). -/
def shaH0 : List Nat :=
  [1779033703, 3144134277, 1013904242, 2773480762,
   1359893119, 2600822924, 528734635, 1541459225]

/-- Big-endian byte decomposition of `n` into `k` bytes. -/
def toBytesBE (k n : Nat) : List Nat :=
  (List.range k).map fun i => (n >>> (8 * (k - 1 - i))) % 256

/-- Big-endian 32-bit words from bytes. -/
def toWordsBE : List Nat → List Nat
  | b0 :: b1 :: b2 :: b3 :: rest =>
    (((b0 * 256 + b1) * 256 + b2) * 256 + b3) :: toWordsBE rest
  | _ => []

def chunksGo (n : Nat) : Nat → List Nat → List (List Nat)
  | 0, _ => []
  | _, [] => []
  | Nat.succ fuel, l => l.take n :: chunksGo n fuel (l.drop n)

/-- Split into chunks of `n` elements. -/
def chunksOf (n : Nat) (l : List Nat) : List (List Nat) := chunksGo n l.length l

/-- Extend the 16-word message schedule by `fuel` further words. -/
def extendW : Nat → List Nat → List Nat
  | 0, w => w
  | Nat.succ fuel, w =>
    let i := w.length
    let nw := w32 (ssig1 (w.getD (i - 2) 0) + w.getD (i - 7) 0 +
      ssig0 (w.getD (i - 15) 0) + w.getD (i - 16) 0)
    extendW fuel (w ++ [nw])

/-- One SHA-256 compression round on the state `[a,b,c,d,e,f,g,h]`. -/
def compressRound (k w : Nat) (st : List Nat) : List Nat :=
  let a := st.getD 0 0
  let b := st.getD 1 0
  let c := st.getD 2 0
  let d := st.getD 3 0
  let e := st.getD 4 0
  let f := st.getD 5 0
  let g := st.getD 6 0
  let h := st.getD 7 0
  let ch := (e &&& f) ^^^ ((e ^^^ 4294967295) &&& g)
  let maj := (a &&& b) ^^^ (a &&& c) ^^^ (b &&& c)
  let t1 := w32 (h + bsig1 e + ch + k + w)
  let t2 := w32 (bsig0 a + maj)
  [w32 (t1 + t2), a, b, c, w32 (d + t1), e, f, g]

/-- SHA-256 compression of one 16-word block into the hash state. -/
def compressBlock (h : List Nat) (block : List Nat) : List Nat :=
  let w := extendW 48 block
  let st := (List.zip shaK w).foldl (fun st kw => compressRound kw.1 kw.2 st) h
  (List.zip h st).map fun p => w32 (p.1 + p.2)

/-- SHA-256 of a byte list. -/
def sha256Bytes (msg : List Nat) : List Nat :=
  let padded := msg ++ [128] ++
    List.replicate ((64 - ((msg.length + 9) % 64)) % 64) 0 ++
    toBytesBE 8 (msg.length * 8)
  let blocks := chunksOf 16 (toWordsBE padded)
  ((blocks.foldl compressBlock shaH0).map (toBytesBE 4)).flatten

/-- HMAC-SHA256 over byte lists. -/
def hmacSha256 (key msg : List Nat) : List Nat :=
  let k0 := if 64 < key.length then sha256Bytes key else key
  let k := k0 ++ List.replicate (64 - k0.length) 0
  let ipad := k.map fun b => b ^^^ 0x36
  let opad := k.map fun b => b ^^^ 0x5c
  sha256Bytes (opad ++ sha256Bytes (ipad ++ msg))

def hexDigits : List Char := "0123456789abcdef".data

def hexChar (n : Nat) : Char := hexDigits.getD n '0'

/-- Lowercase-hex rendering of a byte list (`digest('hex')`). -/
def toHex (bytes : List Nat) : String :=
  String.join (bytes.map fun b => ⟨[hexChar (b / 16), hexChar (b % 16)]⟩)

/-- UTF-8 bytes of a string. -/
def strBytes (s : String) : List Nat := s.toUTF8.toList.map UInt8.toNat

/-- Lowercase-hex HMAC-SHA256 of a message keyed by `secretKey`,
`crypto.createHmac('sha256', secretKey).update(m).digest('hex')`. -/
def hmacSHA256hex (secretKey message : String) : String :=
  toHex (hmacSha256 (strBytes secretKey) (strBytes message))

/-- The signature `makeRequest` computes (the timestamp, `Date.now()` in the
code, is a parameter). -/
def makeRequestSignature (apiKey secretKey method path : String)
    (query body : Option Obj) (timestamp : String) : String :=
  hmacSHA256hex secretKey (buildX apiKey timestamp ++ buildY method path query body)

/-! ### The signing scheme as the specification words it -/

/-- The spec's `X` string, verbatim. -/
def specX (apiKey timestamp : String) : String :=
  "validate-algorithms=HmacSHA256&validate-appkey=" ++ apiKey ++
    "&validate-recvwindow=60000&validate-timestamp=" ++ timestamp

/-- `key=value` for one non-undefined entry. -/
def renderKV (kv : String × Option JVal) : String :=
  kv.1 ++ "=" ++ (match kv.2 with | some v => renderQueryVal v | none => "")

/-- The spec's `queryStr`: the non-undefined query params sorted
lexicographically by key, joined `key=value` with `&`, prefixed with `#`
only when non-empty. -/
def specQueryString (query : Option Obj) : String :=
  let s := joinAmp ((sortByKey (trimObject (query.getD []))).map renderKV)
  if s = "" then "" else "#" ++ s

/-- The spec's `bodyStr`: the JSON serialization of the body (with
undefined-valued keys stripped), prefixed with `#` only when the body has
at least one non-undefined key. -/
def specBodyString (body : Option Obj) : String :=
  match body with
  | none => ""
  | some b =>
    if (trimObject b).length = 0 then "" else "#" ++ jsonStringify (trimObject b)

/-- The spec's `Y` string. -/
def specY (method path : String) (query body : Option Obj) : String :=
  "#" ++ method ++ "#" ++ path ++ specQueryString query ++ specBodyString body

/-! ### END OF DEFINITIONS (claim-specific definitions are inserted above) -/

/-! ## Theorems -/

/-- C5: for a request passing the field middleware, a LIMIT order without a
price, or a MARKET order with one, is rejected with 400 and the exact error
message, independently of credentials and of the adapter outcome (so before
the credential check and before any adapter call), on every exchange. -/
theorem routerOrderTypeCheck (b : OrderBody) (hasCreds : Bool)
    (adapter : AdapterCallResult)
    (hmw1 : validateTradeRequest b = none)
    (hmw2 : validateOrderType b = none) :
    (normalizedType b = "LIMIT" → b.price = none →
      placeOrderPipeline b hasCreds adapter =
        .err 400 "Price is required for LIMIT orders") ∧
    (normalizedType b = "MARKET" → ∀ p, b.price = some p →
      placeOrderPipeline b hasCreds adapter =
        .err 400 "Do not send price for MARKET orders") := by
  constructor
  · intro hty hp
    simp [placeOrderPipeline, hmw1, hmw2, placeOrderController, hty, hp]
  · intro hty p hp
    simp [placeOrderPipeline, hmw1, hmw2, placeOrderController, hty, hp]

/-- Witness for `routerOrderTypeCheck` at a concrete LIMIT request with no
price. -/
theorem routerOrderTypeCheck_witness :
    placeOrderPipeline { symbol := some "btc_usdt", quantity := some 1 }
      false { success := true } = .err 400 "Price is required for LIMIT orders" := by
  have h := routerOrderTypeCheck { symbol := some "btc_usdt", quantity := some 1 }
    false { success := true }
    (by simp [validateTradeRequest]) (by rfl)
  exact h.1 rfl rfl

/-! ### Lemmas on the combined merge -/

/-- Record updates do not change the case-insensitive currency key. -/
theorem key_copy (a : Asset) (ex : String) :
    ({ a with exchanges := [ex] } : Asset).key = a.key := rfl

/-- With no case-insensitive match in the combined list, `mergeAsset`
appends a copy of the asset tagged with its source exchange. -/
theorem mergeAsset_of_no_match (ex : String) (a : Asset) (c : List Asset)
    (h : ∀ b ∈ c, b.key ≠ a.key) :
    mergeAsset ex a c = c ++ [{ a with exchanges := [ex] }] := by
  induction c with
  | nil => rfl
  | cons b rest ih =>
    have hb : b.key ≠ a.key := h b (by simp)
    simp [mergeAsset, hb]
    exact ih (fun x hx => h x (by simp [hx]))

/-- Folding a portfolio, none of whose currencies occur in the accumulator
and whose own currencies are pairwise distinct (case-insensitively),
appends its tagged copies in order. -/
theorem foldMerge_fresh (ex : String) (p : List Asset) (acc : List Asset)
    (hfresh : ∀ a ∈ p, ∀ b ∈ acc, b.key ≠ a.key)
    (hnd : (p.map Asset.key).Nodup) :
    p.foldl (fun c a => mergeAsset ex a c) acc =
      acc ++ p.map (fun a => { a with exchanges := [ex] }) := by
  induction p generalizing acc with
  | nil => simp
  | cons a p' ih =>
    have hstep : mergeAsset ex a acc = acc ++ [{ a with exchanges := [ex] }] :=
      mergeAsset_of_no_match ex a acc (fun b hb => hfresh a (by simp) b hb)
    have hpair : (∀ x ∈ p', ¬ Asset.key x = a.key) ∧ (p'.map Asset.key).Nodup := by
      simpa using hnd
    have hnd' : (p'.map Asset.key).Nodup := hpair.2
    have hanotin : ∀ x ∈ p', a.key ≠ x.key := fun x hx hk =>
      hpair.1 x hx hk.symm
    have hfresh' : ∀ x ∈ p', ∀ b ∈ acc ++ [{ a with exchanges := [ex] }], b.key ≠ x.key := by
      intro x hx b hb
      rcases List.mem_append.mp hb with hacc | hcopy
      · exact hfresh x (by simp [hx]) b hacc
      · have : b = { a with exchanges := [ex] } := by simpa using hcopy
        subst this
        simpa [key_copy] using hanotin x hx
    calc (a :: p').foldl (fun c a => mergeAsset ex a c) acc
        = p'.foldl (fun c a => mergeAsset ex a c) (mergeAsset ex a acc) := by
          simp [List.foldl_cons]
      _ = (acc ++ [{ a with exchanges := [ex] }]) ++
            p'.map (fun a => { a with exchanges := [ex] }) := by
          rw [hstep]; exact ih _ hfresh' hnd'
      _ = acc ++ (a :: p').map (fun a => { a with exchanges := [ex] }) := by
          simp

/-- C2 (counterexample): the two exchanges below share no currency, yet the
combined list has 2 entries, not `2 + 1`, and one entry's `exchanges` has
length 2 — because the merge also folds together same-currency entries
coming from a single exchange (here `"btc"` listed twice by XT, as KuCoin
does for its main/trade/margin accounts). -/
theorem combineDisjoint_counterexample :
    (combinePortfolios [("xt", [{ currency := "btc" }, { currency := "btc" }]),
        ("bybit", [{ currency := "eth" }])]).length ≠ 2 + 1 ∧
    (combinePortfolios [("xt", [{ currency := "btc" }, { currency := "btc" }]),
        ("bybit", [{ currency := "eth" }])]).map Asset.exchanges =
      [["xt", "xt"], ["bybit"]] := by
  constructor <;>
    simp [combinePortfolios, mergeAsset, mergeInto, Asset.key, asciiLower, lowerChar]

/-- C2 (amended): the combined merge looks up existing entries by
case-insensitive currency, sums `total`/`available`/`frozen` into a match
and appends the source exchange, and otherwise inserts a copy tagged with
the one-element exchange list; provided additionally that each single
exchange's portfolio lists each currency at most once (case-insensitively),
merging two exchanges with no overlapping currencies yields a combined list
of length `len(a)+len(b)` in which every entry's `exchanges` has length 1. -/
theorem combineDisjoint_amended (e1 e2 : String) (p1 p2 : List Asset)
    (hnd1 : (p1.map Asset.key).Nodup) (hnd2 : (p2.map Asset.key).Nodup)
    (hdisj : ∀ a ∈ p1, ∀ b ∈ p2, a.key ≠ b.key) :
    combinePortfolios [(e1, p1), (e2, p2)] =
      p1.map (fun a => { a with exchanges := [e1] }) ++
      p2.map (fun a => { a with exchanges := [e2] }) ∧
    (combinePortfolios [(e1, p1), (e2, p2)]).length = p1.length + p2.length ∧
    ∀ a ∈ combinePortfolios [(e1, p1), (e2, p2)], a.exchanges.length = 1 := by
  have h1 : p1.foldl (fun c a => mergeAsset e1 a c) [] =
      p1.map (fun a => { a with exchanges := [e1] }) := by
    simpa using foldMerge_fresh e1 p1 [] (by simp) hnd1
  have h2 : p2.foldl (fun c a => mergeAsset e2 a c)
        (p1.map (fun a => { a with exchanges := [e1] })) =
      p1.map (fun a => { a with exchanges := [e1] }) ++
        p2.map (fun a => { a with exchanges := [e2] }) := by
    refine foldMerge_fresh e2 p2 _ ?_ hnd2
    intro a ha b hb
    rcases List.mem_map.mp hb with ⟨x, hx, hxb⟩
    subst hxb
    rw [key_copy]
    exact hdisj x hx a ha
  have hmain : combinePortfolios [(e1, p1), (e2, p2)] =
      p1.map (fun a => { a with exchanges := [e1] }) ++
      p2.map (fun a => { a with exchanges := [e2] }) := by
    simp only [combinePortfolios, List.foldl_cons, List.foldl_nil]
    rw [h1] at *
    exact h2
  refine ⟨hmain, by simp [hmain], ?_⟩
  intro a ha
  rw [hmain] at ha
  rcases List.mem_append.mp ha with h | h <;>
    · rcases List.mem_map.mp h with ⟨x, _, hxa⟩
      subst hxa
      rfl

/-- Witness for `combineDisjoint_amended` at concrete disjoint portfolios. -/
theorem combineDisjoint_amended_witness :
    (combinePortfolios [("xt", [{ currency := "btc" }]),
        ("bybit", [{ currency := "eth" }, { currency := "usdt" }])]).length = 1 + 2 := by
  have h := combineDisjoint_amended "xt" "bybit"
    [{ currency := "btc" }] [{ currency := "eth" }, { currency := "usdt" }]
    (by simp) (by simp [Asset.key, asciiLower, lowerChar])
    (by simp [Asset.key, asciiLower, lowerChar])
  simpa using h.2.1

/-! ### Lemmas on the combined-portfolio controller -/

/-- The `results`/`errors` fold, characterized pointwise. -/
theorem gather_foldl (r : CombinedReq) (l : List (String × Bool))
    (acc : List (String × List Asset) × List (String × String)) :
    l.foldl
      (fun acc e =>
        if e.2 then
          match r.fetch e.1 with
          | .ok p => (acc.1 ++ [(e.1, p)], acc.2)
          | .fail m => (acc.1, acc.2 ++ [(e.1, m)])
          | .thrown m => (acc.1, acc.2 ++ [(e.1, m)])
        else acc)
      acc =
      (acc.1 ++ l.filterMap (resOf r), acc.2 ++ l.filterMap (errOf r)) := by
  induction l generalizing acc with
  | nil => simp
  | cons e l' ih =>
    by_cases he : e.2
    · cases hf : r.fetch e.1 <;>
        simp [List.foldl_cons, he, hf, ih, resOf, errOf]
    · simp [List.foldl_cons, he, ih, resOf, errOf]

/-- `gather` in closed form. -/
theorem gather_eq (r : CombinedReq) :
    gather r = ((credList r).filterMap (resOf r), (credList r).filterMap (errOf r)) := by
  simpa using gather_foldl r (credList r) ([], [])

/-- An exchange block contributes a result exactly when it has credentials
and its fetch succeeded. -/
theorem resOf_eq_none_iff (r : CombinedReq) (e : String × Bool) :
    resOf r e = none ↔ producedResult r e = false := by
  unfold resOf producedResult
  by_cases he : e.2 <;> cases hf : r.fetch e.1 <;> simp [he, hf]

/-- C3: the combined-portfolio call answers the failure branch (400,
`success:false`) iff no exchange produced a successful portfolio result; in
that case it carries the accumulated per-exchange errors and the full
`requiredHeaders` hint; otherwise it answers 200 with the merged aggregate
and attaches the errors list exactly when some exchange failed. -/
theorem combinedPortfolioFailure (r : CombinedReq) :
    ((getCombinedPortfolio r).isFailure = true ↔
      (credList r).all (fun e => !producedResult r e) = true) ∧
    ((credList r).all (fun e => !producedResult r e) = true →
      getCombinedPortfolio r =
        .failure 400 "No valid exchange credentials provided"
          ((credList r).filterMap (errOf r)) requiredHeaders) ∧
    ((credList r).all (fun e => !producedResult r e) = false →
      getCombinedPortfolio r =
        .success 200 (combinePortfolios ((credList r).filterMap (resOf r)))
          (combinePortfolios ((credList r).filterMap (resOf r))).length
          (if ((credList r).filterMap (errOf r)).isEmpty then none
           else some ((credList r).filterMap (errOf r)))) := by
  have hempty : ((credList r).filterMap (resOf r)).isEmpty = true ↔
      (credList r).all (fun e => !producedResult r e) = true := by
    simp only [List.isEmpty_iff, List.filterMap_eq_nil_iff, List.all_eq_true,
      Bool.not_eq_true']
    constructor
    · intro h e he
      exact (resOf_eq_none_iff r e).mp (h e he)
    · intro h e he
      exact (resOf_eq_none_iff r e).mpr (h e he)
  refine ⟨?_, ?_, ?_⟩
  · unfold getCombinedPortfolio
    rw [gather_eq]
    by_cases h : ((credList r).filterMap (resOf r)).isEmpty
    · simp only [h, if_true]
      simpa [CombinedResp.isFailure] using hempty.mp h
    · simp only [h, if_false]
      simp only [CombinedResp.isFailure]
      constructor
      · intro hc
        exact absurd hc (by simp)
      · intro hall
        exact absurd (hempty.mpr hall) h
  · intro hall
    unfold getCombinedPortfolio
    rw [gather_eq]
    simp [hempty.mpr hall]
  · intro hall
    unfold getCombinedPortfolio
    rw [gather_eq]
    have : ¬ ((credList r).filterMap (resOf r)).isEmpty = true := fun hc =>
      by simp [hempty.mp hc] at hall
    simp [this]

/-- Witness for `combinedPortfolioFailure`: with no credentials at all the
endpoint fails with 400 and the header hint. -/
theorem combinedPortfolioFailure_witness :
    getCombinedPortfolio {} =
      .failure 400 "No valid exchange credentials provided" [] requiredHeaders := by
  have h := (combinedPortfolioFailure {}).2.1 (by rfl)
  simpa [credList, errOf] using h

/-- C10: folding an asset into an existing combined entry (the first
case-insensitive match) replaces only that entry, and the update touches
only `total`, `available`, `frozen` and `exchanges`; `currency` (with its
letter case), `currencyId`, `usdValue`, `equity`, `convertBtcAmount`,
`convertUsdtAmount`, `accountType`, `type` and `exchange` keep the values
copied from the first exchange that contributed the currency. -/
theorem mergeFrameEffect (ex : String) (a b : Asset) (pre post : List Asset)
    (hpre : ∀ c ∈ pre, c.key ≠ a.key) (hb : b.key = a.key) :
    mergeAsset ex a (pre ++ b :: post) = pre ++ mergeInto b ex a :: post ∧
    (mergeInto b ex a).total = b.total + a.total ∧
    (mergeInto b ex a).available = b.available + a.available ∧
    (mergeInto b ex a).frozen = b.frozen + a.frozen ∧
    (mergeInto b ex a).exchanges = b.exchanges ++ [ex] ∧
    (mergeInto b ex a).currency = b.currency ∧
    (mergeInto b ex a).currencyId = b.currencyId ∧
    (mergeInto b ex a).usdValue = b.usdValue ∧
    (mergeInto b ex a).equity = b.equity ∧
    (mergeInto b ex a).convertBtcAmount = b.convertBtcAmount ∧
    (mergeInto b ex a).convertUsdtAmount = b.convertUsdtAmount ∧
    (mergeInto b ex a).accountType = b.accountType ∧
    (mergeInto b ex a).assetType = b.assetType ∧
    (mergeInto b ex a).exchange = b.exchange := by
  refine ⟨?_, rfl, rfl, rfl, rfl, rfl, rfl, rfl, rfl, rfl, rfl, rfl, rfl, rfl⟩
  induction pre with
  | nil => simp [mergeAsset, hb]
  | cons c pre' ih =>
    have hc : c.key ≠ a.key := hpre c (by simp)
    simp only [List.cons_append, mergeAsset, hc, if_false, if_neg hc]
    exact congrArg (c :: ·) (ih (fun x hx => hpre x (by simp [hx])))

/-- Witness for `mergeFrameEffect`: merging a Bybit `USDT` row into an
existing combined `usdt` entry changes only the four mutable fields. -/
theorem mergeFrameEffect_witness :
    mergeAsset "bybit"
      { currency := "USDT", usdValue := some 3 }
      [{ currency := "usdt", usdValue := some 7, exchanges := ["xt"] }] =
      [mergeInto { currency := "usdt", usdValue := some 7, exchanges := ["xt"] }
        "bybit" { currency := "USDT", usdValue := some 3 }] ∧
    (mergeInto { currency := "usdt", usdValue := some 7, exchanges := ["xt"] }
        "bybit" { currency := "USDT", usdValue := some 3 }).usdValue = some 7 := by
  have h := mergeFrameEffect "bybit"
    { currency := "USDT", usdValue := some 3 }
    { currency := "usdt", usdValue := some 7, exchanges := ["xt"] }
    [] []
    (by simp)
    (by simp [Asset.key, asciiLower, lowerChar, Char.ofNat]; rfl)
  exact ⟨by simpa using h.1, h.2.2.2.2.2.2.2.1⟩

/-! ### Zero-total exclusion (C4) -/

/-- `(if p then some a else none) = some b` unpacked. -/
theorem ite_some_none_eq {α : Type} (p : Prop) [Decidable p] {a b : α} :
    (if p then some a else none) = some b ↔ p ∧ a = b := by
  by_cases h : p
  · simp [h]
  · simp [h]

/-- Folding with list append shifts the accumulator out front. -/
theorem foldlAppend {α β : Type} (f : α → List β) (l : List α) (x : List β) :
    l.foldl (fun acc a => acc ++ f a) x = x ++ l.foldl (fun acc a => acc ++ f a) [] := by
  induction l generalizing x with
  | nil => simp
  | cons a l' ih =>
    rw [List.foldl_cons, List.foldl_cons, ih (x ++ f a), ih ([] ++ f a)]
    simp

/-- One Bybit account block at a time. -/
theorem bybitPortfolio_cons (acct : BybitAccount) (rest : List BybitAccount)
    (accountType : String) :
    bybitPortfolio (acct :: rest) accountType =
      bybitAccountEntries accountType acct ++ bybitPortfolio rest accountType := by
  unfold bybitPortfolio
  rw [List.foldl_cons, foldlAppend]
  simp

/-- C4 (counterexample): Bybit keeps a row whenever
`walletBalance > 0 || usdValue > 0 || equity > 0`, so an entry with
computed `total = 0` but positive `usdValue` is NOT excluded from the
normalized portfolio. -/
theorem zeroTotalExclusion_counterexample :
    (bybitPortfolio
        [{ accountType := some "UNIFIED",
           coin := some [{ coin := "ABC", walletBalance := some 0, usdValue := some 5 }] }]
        "UNIFIED").map Asset.total = [0] := by
  rw [bybitPortfolio_cons]
  norm_num [bybitPortfolio, bybitAccountEntries, List.filterMap_cons]

/-- C4 (amended): XT, Binance, KuCoin and Bitget exclude every entry whose
computed total is not positive (in particular every zero-total entry), but
Bybit only guarantees that a kept entry has positive `walletBalance`
(=`total`), `usdValue` or `equity` — a zero-total entry stays when its
`usdValue` or `equity` is positive. -/
theorem zeroTotalExclusion_amended :
    (∀ rows, ∀ e ∈ xtPortfolio rows, 0 < e.total) ∧
    (∀ rows prices, ∀ e ∈ binancePortfolio rows prices, 0 < e.total) ∧
    (∀ rows, ∀ e ∈ kucoinPortfolio rows, 0 < e.total) ∧
    (∀ rows, ∀ e ∈ bitgetPortfolio rows, 0 < e.total) ∧
    (∀ accounts accountType, ∀ e ∈ bybitPortfolio accounts accountType,
      0 < e.total ∨ 0 < e.usdValue.getD 0 ∨ 0 < e.equity.getD 0) := by
  refine ⟨?_, ?_, ?_, ?_, ?_⟩
  · intro rows e he
    rcases List.mem_filterMap.mp he with ⟨b, _, hb⟩
    simp only [ite_some_none_eq] at hb
    obtain ⟨hpos, hrec⟩ := hb
    rw [← hrec]
    exact hpos
  · intro rows prices e he
    rcases List.mem_filterMap.mp he with ⟨b, _, hb⟩
    simp only [ite_some_none_eq] at hb
    obtain ⟨hpos, hrec⟩ := hb
    rw [← hrec]
    exact hpos
  · intro rows e he
    rcases List.mem_filterMap.mp he with ⟨b, _, hb⟩
    simp only [ite_some_none_eq] at hb
    obtain ⟨hpos, hrec⟩ := hb
    rw [← hrec]
    exact hpos
  · intro rows e he
    rcases List.mem_filterMap.mp he with ⟨b, _, hb⟩
    simp only [ite_some_none_eq] at hb
    obtain ⟨hpos, hrec⟩ := hb
    rw [← hrec]
    exact hpos
  · intro accounts accountType e he
    induction accounts with
    | nil => cases he
    | cons acct rest ih =>
      rw [bybitPortfolio_cons] at he
      rcases List.mem_append.mp he with hleft | hright
      · unfold bybitAccountEntries at hleft
        rcases hco : acct.coin with _ | coins
        · rw [hco] at hleft; cases hleft
        · rw [hco] at hleft
          rcases List.mem_filterMap.mp hleft with ⟨cd, _, hcd⟩
          simp only [ite_some_none_eq] at hcd
          obtain ⟨hcond, hrec⟩ := hcd
          rw [← hrec]
          simpa using hcond
      · exact ih hright

/-- Witness for `zeroTotalExclusion_amended` at a concrete XT row. -/
theorem zeroTotalExclusion_amended_witness :
    0 < ({ currency := "btc", total := 5 } : Asset).total := by
  have h := zeroTotalExclusion_amended.1
    [{ currency := "btc", totalAmount := some 5 }]
    { currency := "btc", total := 5 }
  exact h (by decide)

/-! ### XT order validation (C6) -/

/-- Membership in a one-error conditional list. -/
theorem mem_ite_singleton {α : Type} (p : Prop) [Decidable p] (x y : α) :
    x ∈ (if p then [y] else []) ↔ p ∧ x = y := by
  by_cases h : p <;> simp [h]

/-- Everything in `minQtyErrors` is a `qtyBelowMin`. -/
theorem mem_minQtyErrors {x : XtValidationError} {om : Option ℚ} {q : ℚ}
    (h : x ∈ minQtyErrors om q) : ∃ a b, x = .qtyBelowMin a b := by
  rcases om with _ | mq
  · cases h
  · rcases (mem_ite_singleton _ _ _).mp h with ⟨_, hx⟩
    exact ⟨_, _, hx⟩

/-- Everything in `minNotionalErrors` is a `totalBelowMinNotional`. -/
theorem mem_minNotionalErrors {x : XtValidationError} {om : Option ℚ} {t : ℚ}
    (h : x ∈ minNotionalErrors om t) : ∃ a b, x = .totalBelowMinNotional a b := by
  rcases om with _ | mn
  · cases h
  · rcases (mem_ite_singleton _ _ _).mp h with ⟨_, hx⟩
    exact ⟨_, _, hx⟩

/-- Everything in `basePrecisionErrors` is a `qtyPrecisionExceeded`. -/
theorem mem_basePrecisionErrors {x : XtValidationError} {ob : Option Nat} {n : Nat}
    (h : x ∈ basePrecisionErrors ob n) : ∃ a b, x = .qtyPrecisionExceeded a b := by
  rcases ob with _ | bp
  · cases h
  · rcases (mem_ite_singleton _ _ _).mp h with ⟨_, hx⟩
    exact ⟨_, _, hx⟩

/-- Everything in `pricePrecisionErrors` is a `pricePrecisionExceeded`. -/
theorem mem_pricePrecisionErrors {x : XtValidationError} {op : Option Nat} {n : Nat}
    (h : x ∈ pricePrecisionErrors op n) : ∃ a b, x = .pricePrecisionExceeded a b := by
  rcases op with _ | pp
  · cases h
  · rcases (mem_ite_singleton _ _ _).mp h with ⟨_, hx⟩
    exact ⟨_, _, hx⟩

/-- The LIMIT branch of `validateOrder` with a positive price, in closed
form. -/
theorem validateOrder_limit (si : SymbolInfo) (q p : Dec) (hp : 0 < p.val) :
    validateOrder (some si) q (some p) "LIMIT" =
      ⟨(minQtyErrors si.minQty q.val ++
        minNotionalErrors si.minNotional (q.val * p.val) ++
        basePrecisionErrors si.basePrecision q.places ++
        pricePrecisionErrors si.pricePrecision p.places).isEmpty,
       minQtyErrors si.minQty q.val ++
        minNotionalErrors si.minNotional (q.val * p.val) ++
        basePrecisionErrors si.basePrecision q.places ++
        pricePrecisionErrors si.pricePrecision p.places⟩ := by
  simp only [validateOrder, if_pos (rfl : ("LIMIT" : String) = "LIMIT"),
    if_neg (not_le.mpr hp), ite_true, ite_false]

/-- The MARKET branch of `validateOrder`, in closed form. -/
theorem validateOrder_market (si : SymbolInfo) (q : Dec) (pr : Option Dec) :
    validateOrder (some si) q pr "MARKET" =
      ⟨(marketAmountErrors si.minNotional q.val).isEmpty,
       marketAmountErrors si.minNotional q.val⟩ := by
  simp only [validateOrder, if_neg (by decide : ¬ ("MARKET" : String) = "LIMIT"),
    if_pos (rfl : ("MARKET" : String) = "MARKET"), ite_true, ite_false]

/-- C6: for known symbol metadata, LIMIT validation (with a parseable
positive price) flags exactly the violated rules — quantity below `minQty`,
`quantity*price` below `minNotional`, quantity decimals over
`basePrecision`, price decimals over `pricePrecision` — accumulating all of
them in one error list, and is valid iff that list is empty; MARKET
validation flags `quantity < minNotional`.  In the documented scenario with
`minNotional = 5`, quantity 0.01 at price 50000 passes (total 500 ≥ 5)
while quantity 0.00001 at price 50000 fails listing the minNotional
violation (total 0.5 < 5). -/
theorem xtValidateOrderRules :
    (∀ (si : SymbolInfo) (q p : Dec), 0 < p.val →
      (∀ mq, si.minQty = some mq →
        (XtValidationError.qtyBelowMin q.val mq ∈
            (validateOrder (some si) q (some p) "LIMIT").errors ↔ q.val < mq)) ∧
      (∀ mn, si.minNotional = some mn →
        (XtValidationError.totalBelowMinNotional (q.val * p.val) mn ∈
            (validateOrder (some si) q (some p) "LIMIT").errors ↔ q.val * p.val < mn)) ∧
      (∀ bp, si.basePrecision = some bp →
        (XtValidationError.qtyPrecisionExceeded q.places bp ∈
            (validateOrder (some si) q (some p) "LIMIT").errors ↔ bp < q.places)) ∧
      (∀ pp, si.pricePrecision = some pp →
        (XtValidationError.pricePrecisionExceeded p.places pp ∈
            (validateOrder (some si) q (some p) "LIMIT").errors ↔ pp < p.places)) ∧
      ((validateOrder (some si) q (some p) "LIMIT").valid = true ↔
        (validateOrder (some si) q (some p) "LIMIT").errors = [])) ∧
    (∀ (si : SymbolInfo) (q : Dec) (pr : Option Dec) (mn : ℚ),
      si.minNotional = some mn →
      (XtValidationError.amountBelowMinNotional q.val mn ∈
          (validateOrder (some si) q pr "MARKET").errors ↔ q.val < mn)) ∧
    (validateOrder (some scenarioSymbolInfo) ⟨1, 2⟩ (some ⟨50000, 0⟩) "LIMIT").valid = true ∧
    (validateOrder (some scenarioSymbolInfo) ⟨1, 5⟩ (some ⟨50000, 0⟩) "LIMIT").valid = false ∧
    XtValidationError.totalBelowMinNotional ((1 : ℚ) / 2) 5 ∈
      (validateOrder (some scenarioSymbolInfo) ⟨1, 5⟩ (some ⟨50000, 0⟩) "LIMIT").errors := by
  refine ⟨?_, ?_, ?_, ?_, ?_⟩
  · intro si q p hp
    rw [validateOrder_limit si q p hp]
    refine ⟨?_, ?_, ?_, ?_, ?_⟩
    · intro mq hmq
      simp only [List.mem_append]
      constructor
      · rintro (((h | h) | h) | h)
        · rw [hmq] at h
          exact ((mem_ite_singleton _ _ _).mp h).1
        · rcases mem_minNotionalErrors h with ⟨a, b, hx⟩; cases hx
        · rcases mem_basePrecisionErrors h with ⟨a, b, hx⟩; cases hx
        · rcases mem_pricePrecisionErrors h with ⟨a, b, hx⟩; cases hx
      · intro hc
        exact Or.inl (Or.inl (Or.inl (by rw [hmq]; exact (mem_ite_singleton _ _ _).mpr ⟨hc, rfl⟩)))
    · intro mn hmn
      simp only [List.mem_append]
      constructor
      · rintro (((h | h) | h) | h)
        · rcases mem_minQtyErrors h with ⟨a, b, hx⟩; cases hx
        · rw [hmn] at h
          exact ((mem_ite_singleton _ _ _).mp h).1
        · rcases mem_basePrecisionErrors h with ⟨a, b, hx⟩; cases hx
        · rcases mem_pricePrecisionErrors h with ⟨a, b, hx⟩; cases hx
      · intro hc
        exact Or.inl (Or.inl (Or.inr (by rw [hmn]; exact (mem_ite_singleton _ _ _).mpr ⟨hc, rfl⟩)))
    · intro bp hbp
      simp only [List.mem_append]
      constructor
      · rintro (((h | h) | h) | h)
        · rcases mem_minQtyErrors h with ⟨a, b, hx⟩; cases hx
        · rcases mem_minNotionalErrors h with ⟨a, b, hx⟩; cases hx
        · rw [hbp] at h
          exact ((mem_ite_singleton _ _ _).mp h).1
        · rcases mem_pricePrecisionErrors h with ⟨a, b, hx⟩; cases hx
      · intro hc
        exact Or.inl (Or.inr (by rw [hbp]; exact (mem_ite_singleton _ _ _).mpr ⟨hc, rfl⟩))
    · intro pp hpp
      simp only [List.mem_append]
      constructor
      · rintro (((h | h) | h) | h)
        · rcases mem_minQtyErrors h with ⟨a, b, hx⟩; cases hx
        · rcases mem_minNotionalErrors h with ⟨a, b, hx⟩; cases hx
        · rcases mem_basePrecisionErrors h with ⟨a, b, hx⟩; cases hx
        · rw [hpp] at h
          exact ((mem_ite_singleton _ _ _).mp h).1
      · intro hc
        exact Or.inr (by rw [hpp]; exact (mem_ite_singleton _ _ _).mpr ⟨hc, rfl⟩)
    · simp [List.isEmpty_iff]
  · intro si q pr mn hmn
    rw [validateOrder_market si q pr, hmn]
    simp only [marketAmountErrors]
    exact (mem_ite_singleton _ _ _).trans (by simp)
  · rw [validateOrder_limit _ _ _ (by norm_num [Dec.val])]
    norm_num [scenarioSymbolInfo, minQtyErrors, minNotionalErrors,
      basePrecisionErrors, pricePrecisionErrors, Dec.val]
  · rw [validateOrder_limit _ _ _ (by norm_num [Dec.val])]
    norm_num [scenarioSymbolInfo, minQtyErrors, minNotionalErrors,
      basePrecisionErrors, pricePrecisionErrors, Dec.val]
  · rw [validateOrder_limit _ _ _ (by norm_num [Dec.val])]
    norm_num [scenarioSymbolInfo, minQtyErrors, minNotionalErrors,
      basePrecisionErrors, pricePrecisionErrors, Dec.val]

/-- Witness for `xtValidateOrderRules`: the minQty rule fires at quantity 1
against `minQty = 5`. -/
theorem xtValidateOrderRules_witness :
    XtValidationError.qtyBelowMin (Dec.mk 1 0).val 5 ∈
      (validateOrder (some { symbol := "btc_usdt", minQty := some 5 })
        ⟨1, 0⟩ (some ⟨1, 0⟩) "LIMIT").errors := by
  have h := (xtValidateOrderRules.1 { symbol := "btc_usdt", minQty := some 5 }
    ⟨1, 0⟩ ⟨1, 0⟩ (by norm_num [Dec.val])).1 5 rfl
  exact h.mpr (by norm_num [Dec.val])

/-! ### XT balance checking on BUY/SELL (C7, C9) -/

/-- `toUpperCase` fixes the literal "LIMIT". -/
theorem asciiUpper_LIMIT : asciiUpper "LIMIT" = "LIMIT" := rfl

/-- `toUpperCase` fixes the literal "MARKET". -/
theorem asciiUpper_MARKET : asciiUpper "MARKET" = "MARKET" := rfl

/-- C7: on a BUY that passes validation, the required amount is
`quantity*price` (LIMIT) resp. `quantity` (MARKET) plus the minimum reserve
— 1 when the quote currency (second `_`-token of the symbol) is USDT, else
0 — compared against the live available quote-currency balance; when
insufficient the order is rejected with the available and required amounts
surfaced, identically for every submission outcome (hence before any
submission to the exchange). -/
theorem xtBuyBalanceCheck (symbol : String) (q p : Dec) (o : XtOrderOracle) :
    (∀ (quote : String) (required : ℚ), o.balance.success = true →
      ((checkBalance quote required o.balance).sufficient = true ↔
        required ≤ availableOf o.balance quote)) ∧
    ((validateOrder o.symbolInfo q (some p) "LIMIT").valid = true →
      0 < q.val → 0 < p.val →
      (checkBalance (quoteCurrencyOf symbol)
          (q.val * p.val + xtMinReserve (quoteCurrencyOf symbol)) o.balance).sufficient = false →
      ∀ s, placeBuyOrder symbol q (some p) "LIMIT" { o with submit := s } =
        { success := false,
          error := some (.insufficientBalance (quoteCurrencyOf symbol) (q.val * p.val)
            (xtMinReserve (quoteCurrencyOf symbol))
            (q.val * p.val + xtMinReserve (quoteCurrencyOf symbol))
            (checkBalance (quoteCurrencyOf symbol)
              (q.val * p.val + xtMinReserve (quoteCurrencyOf symbol)) o.balance).available),
          balanceCheck := some (checkBalance (quoteCurrencyOf symbol)
            (q.val * p.val + xtMinReserve (quoteCurrencyOf symbol)) o.balance) }) ∧
    ((validateOrder o.symbolInfo q none "MARKET").valid = true →
      0 < q.val →
      (checkBalance (quoteCurrencyOf symbol)
          (q.val + xtMinReserve (quoteCurrencyOf symbol)) o.balance).sufficient = false →
      ∀ s, placeBuyOrder symbol q none "MARKET" { o with submit := s } =
        { success := false,
          error := some (.insufficientBalance (quoteCurrencyOf symbol) q.val
            (xtMinReserve (quoteCurrencyOf symbol))
            (q.val + xtMinReserve (quoteCurrencyOf symbol))
            (checkBalance (quoteCurrencyOf symbol)
              (q.val + xtMinReserve (quoteCurrencyOf symbol)) o.balance).available),
          balanceCheck := some (checkBalance (quoteCurrencyOf symbol)
            (q.val + xtMinReserve (quoteCurrencyOf symbol)) o.balance) }) ∧
    (asciiLower (quoteCurrencyOf symbol) = "usdt" →
      xtMinReserve (quoteCurrencyOf symbol) = 1) ∧
    (asciiLower (quoteCurrencyOf symbol) ≠ "usdt" →
      xtMinReserve (quoteCurrencyOf symbol) = 0) := by
  refine ⟨?_, ?_, ?_, ?_, ?_⟩
  · intro quote required hok
    simp [checkBalance, hok]
  · intro hv hq hp hins s
    have hpne : ¬ p.val = 0 := ne_of_gt hp
    have htne : ¬ q.val * p.val = 0 := ne_of_gt (mul_pos hq hp)
    simp only [placeBuyOrder, hv, not_true, ite_false, Bool.not_true,
      asciiUpper_LIMIT, if_pos (rfl : ("LIMIT" : String) = "LIMIT"),
      if_neg hpne, ite_true]
    rw [if_pos htne]
    simp only [hins, Bool.not_false, ite_true, Bool.false_eq_true,
      not_false_iff, if_pos trivial]
  · intro hv hq hins s
    have htne : ¬ q.val = 0 := ne_of_gt hq
    simp only [placeBuyOrder, hv, not_true, ite_false, Bool.not_true,
      asciiUpper_MARKET,
      if_neg (by decide : ¬ ("MARKET" : String) = "LIMIT"),
      if_pos (rfl : ("MARKET" : String) = "MARKET"), ite_true]
    rw [if_pos htne]
    simp only [hins, Bool.not_false, ite_true, Bool.false_eq_true,
      not_false_iff, if_pos trivial]
  · intro h
    simp [xtMinReserve, h]
  · intro h
    simp [xtMinReserve, h]

/-- Witness for `xtBuyBalanceCheck`: a concrete LIMIT BUY against a failed
balance fetch is rejected with the required amount `1*2 + reserve`. -/
theorem xtBuyBalanceCheck_witness :
    placeBuyOrder "btc_usdt" ⟨1, 0⟩ (some ⟨2, 0⟩) "LIMIT"
      { symbolInfo := some { symbol := "btc_usdt" }, balance := ⟨false, []⟩,
        submit := .thrown "" } =
      { success := false,
        error := some (.insufficientBalance (quoteCurrencyOf "btc_usdt")
          ((Dec.mk 1 0).val * (Dec.mk 2 0).val)
          (xtMinReserve (quoteCurrencyOf "btc_usdt"))
          ((Dec.mk 1 0).val * (Dec.mk 2 0).val + xtMinReserve (quoteCurrencyOf "btc_usdt"))
          (checkBalance (quoteCurrencyOf "btc_usdt")
            ((Dec.mk 1 0).val * (Dec.mk 2 0).val + xtMinReserve (quoteCurrencyOf "btc_usdt"))
            ⟨false, []⟩).available),
        balanceCheck := some (checkBalance (quoteCurrencyOf "btc_usdt")
          ((Dec.mk 1 0).val * (Dec.mk 2 0).val + xtMinReserve (quoteCurrencyOf "btc_usdt"))
          ⟨false, []⟩) } := by
  have h := (xtBuyBalanceCheck "btc_usdt" ⟨1, 0⟩ ⟨2, 0⟩
    { symbolInfo := some { symbol := "btc_usdt" }, balance := ⟨false, []⟩,
      submit := .thrown "" }).2.1
    (by rw [validateOrder_limit _ _ _ (by norm_num [Dec.val])]; rfl)
    (by norm_num [Dec.val]) (by norm_num [Dec.val]) (by rfl) (.thrown "")
  exact h

/-- C9: when the pre-flight balance fetch fails, `checkBalance` reports
`sufficient:false` with `available = 0`, so a BUY or SELL that passed
validation is rejected with the insufficient-balance error carrying
`available = 0`, although the account's actual balance was never seen; the
BUY error is the same one produced by a genuinely empty balance list. -/
theorem xtBalanceFetchFailure (symbol : String) (q p : Dec) (pr : Option Dec)
    (otype : String) (o : XtOrderOracle) (hfail : o.balance.success = false) :
    (∀ quote required, checkBalance quote required o.balance =
      { sufficient := false, available := 0, required := required }) ∧
    ((validateOrder o.symbolInfo q (some p) "LIMIT").valid = true →
      0 < q.val → 0 < p.val →
      placeBuyOrder symbol q (some p) "LIMIT" o =
        { success := false,
          error := some (.insufficientBalance (quoteCurrencyOf symbol) (q.val * p.val)
            (xtMinReserve (quoteCurrencyOf symbol))
            (q.val * p.val + xtMinReserve (quoteCurrencyOf symbol)) 0),
          balanceCheck :=
            some ⟨false, 0, q.val * p.val + xtMinReserve (quoteCurrencyOf symbol), none⟩ } ∧
      (placeBuyOrder symbol q (some p) "LIMIT" o).error =
        (placeBuyOrder symbol q (some p) "LIMIT"
          { o with balance := { success := true, data := [] } }).error) ∧
    ((validateOrder o.symbolInfo q pr otype).valid = true →
      placeSellOrder symbol q pr otype o =
        { success := false,
          error := some (.insufficientSellBalance (baseCurrencyOf symbol) q.val 0),
          balanceCheck := some ⟨false, 0, q.val, none⟩ }) := by
  have hcb : ∀ quote required, checkBalance quote required o.balance =
      { sufficient := false, available := 0, required := required } := by
    intro quote required
    simp [checkBalance, hfail]
  refine ⟨hcb, ?_, ?_⟩
  · intro hv hq hp
    have hpne : ¬ p.val = 0 := ne_of_gt hp
    have htne : ¬ q.val * p.val = 0 := ne_of_gt (mul_pos hq hp)
    have hreq : 0 < q.val * p.val + xtMinReserve (quoteCurrencyOf symbol) := by
      have : (0 : ℚ) ≤ xtMinReserve (quoteCurrencyOf symbol) := by
        unfold xtMinReserve; split <;> norm_num
      have := add_pos_of_pos_of_nonneg (mul_pos hq hp) this
      exact this
    constructor
    · simp only [placeBuyOrder, hv, not_true, ite_false, Bool.not_true,
        asciiUpper_LIMIT, if_pos (rfl : ("LIMIT" : String) = "LIMIT"),
        if_neg hpne, ite_true]
      rw [if_pos htne]
      rw [hcb]
      simp
    · have hempty : availableOf { success := true, data := [] } (quoteCurrencyOf symbol) = 0 := by
        simp [availableOf]
      simp only [placeBuyOrder, hv, not_true, ite_false, Bool.not_true,
        asciiUpper_LIMIT, if_pos (rfl : ("LIMIT" : String) = "LIMIT"),
        if_neg hpne, ite_true]
      rw [if_pos htne, if_pos htne, hcb]
      have hsf : (checkBalance (quoteCurrencyOf symbol)
          (q.val * p.val + xtMinReserve (quoteCurrencyOf symbol))
          { success := true, data := ([] : List XtRawBalance) }) =
          { sufficient := false, available := 0,
            required := q.val * p.val + xtMinReserve (quoteCurrencyOf symbol),
            currency := some (quoteCurrencyOf symbol) } := by
        simp [checkBalance, hempty, decide_eq_false (not_le.mpr hreq)]
      rw [hsf]
      simp
  · intro hv
    simp only [placeSellOrder, hv, not_true, ite_false, Bool.not_true]
    rw [hcb]
    simp

/-- Witness for `xtBalanceFetchFailure`: concrete SELL against a failed
balance fetch. -/
theorem xtBalanceFetchFailure_witness :
    placeSellOrder "btc_usdt" ⟨1, 0⟩ (some ⟨2, 0⟩) "LIMIT"
      { symbolInfo := some { symbol := "btc_usdt" }, balance := ⟨false, []⟩,
        submit := .thrown "" } =
      { success := false,
        error := some (.insufficientSellBalance (baseCurrencyOf "btc_usdt")
          (Dec.mk 1 0).val 0),
        balanceCheck := some ⟨false, 0, (Dec.mk 1 0).val, none⟩ } := by
  have h := (xtBalanceFetchFailure "btc_usdt" ⟨1, 0⟩ ⟨2, 0⟩ (some ⟨2, 0⟩) "LIMIT"
    { symbolInfo := some { symbol := "btc_usdt" }, balance := ⟨false, []⟩,
      submit := .thrown "" } (by rfl)).2.2
    (by rw [validateOrder_limit _ _ _ (by norm_num [Dec.val])]; rfl)
  exact h

/-! ### Adapter error envelopes (C8) -/

/-- `xtSubmitOrder` either succeeds or carries an error. -/
theorem xtSubmitOrder_cases (out : XtApiOutcome) (fb : String) :
    (xtSubmitOrder out fb).success = true ∨ (xtSubmitOrder out fb).error ≠ none := by
  cases out with
  | thrown m => right; simp [xtSubmitOrder]
  | resp rc mc ma =>
    by_cases h : rc ≠ 0
    · right; simp [xtSubmitOrder, h]
    · left; simp [xtSubmitOrder, h]

/-- `placeBuyOrder` either succeeds or carries an error. -/
theorem placeBuyOrder_cases (symbol : String) (q : Dec) (pr : Option Dec)
    (ty : String) (o : XtOrderOracle) :
    (placeBuyOrder symbol q pr ty o).success = true ∨
      (placeBuyOrder symbol q pr ty o).error ≠ none := by
  by_cases hv : (validateOrder o.symbolInfo q pr ty).valid = true
  · unfold placeBuyOrder
    rw [if_neg (not_not_intro hv)]
    by_cases hL : asciiUpper ty = "LIMIT"
    · rcases pr with _ | p
      · rw [if_pos hL]
        exact xtSubmitOrder_cases _ _
      · by_cases hz : p.val = 0
        · rw [if_pos hL]
          dsimp only
          rw [if_pos hz]
          exact xtSubmitOrder_cases _ _
        · rw [if_pos hL]
          dsimp only
          rw [if_neg hz]
          dsimp only
          by_cases ht : q.val * p.val = 0
          · rw [if_neg (not_not_intro ht)]
            exact xtSubmitOrder_cases _ _
          · rw [if_pos ht]
            by_cases hs : (checkBalance (quoteCurrencyOf symbol)
                (q.val * p.val + xtMinReserve (quoteCurrencyOf symbol)) o.balance).sufficient = true
            · rw [if_neg (not_not_intro hs)]
              exact xtSubmitOrder_cases _ _
            · rw [if_pos hs]
              right; simp
    · by_cases hM : asciiUpper ty = "MARKET"
      · rw [if_neg hL, if_pos hM]
        dsimp only
        by_cases ht : q.val = 0
        · rw [if_neg (not_not_intro ht)]
          exact xtSubmitOrder_cases _ _
        · rw [if_pos ht]
          by_cases hs : (checkBalance (quoteCurrencyOf symbol)
              (q.val + xtMinReserve (quoteCurrencyOf symbol)) o.balance).sufficient = true
          · rw [if_neg (not_not_intro hs)]
            exact xtSubmitOrder_cases _ _
          · rw [if_pos hs]
            right; simp
      · rw [if_neg hL, if_neg hM]
        exact xtSubmitOrder_cases _ _
  · right; simp [placeBuyOrder, hv]

/-- `placeSellOrder` either succeeds or carries an error. -/
theorem placeSellOrder_cases (symbol : String) (q : Dec) (pr : Option Dec)
    (ty : String) (o : XtOrderOracle) :
    (placeSellOrder symbol q pr ty o).success = true ∨
      (placeSellOrder symbol q pr ty o).error ≠ none := by
  by_cases hv : (validateOrder o.symbolInfo q pr ty).valid = true
  · unfold placeSellOrder
    rw [if_neg (not_not_intro hv)]
    by_cases hs : (checkBalance (baseCurrencyOf symbol) q.val o.balance).sufficient = true
    · rw [if_neg (not_not_intro hs)]
      exact xtSubmitOrder_cases _ _
    · rw [if_pos hs]
      right; simp
  · right; simp [placeSellOrder, hv]

/-- C8: every modelled adapter operation is a total function of the call
outcome — a thrown exception is caught, never propagated — and every
thrown-exception or non-success-native-code outcome yields an envelope with
`success:false` and an error message (the thrown message, the native
message, or the operation's fallback text). -/
theorem adapterErrorEnvelope :
    (∀ fb m, (xtEnvelope fb (.thrown m)).success = false ∧
      (xtEnvelope fb (.thrown m)).error = some (if m = "" then fb else m)) ∧
    (∀ fb rc mc, rc ≠ 0 → (xtEnvelope fb (.resp rc mc)).success = false ∧
      (xtEnvelope fb (.resp rc mc)).error = some (if mc = "" then fb else mc)) ∧
    (∀ m, (xtGetBalance (.thrown m)).success = false ∧
      (xtGetBalance (.thrown m)).error = some (if m = "" then "Failed to fetch balance" else m)) ∧
    (∀ rc mc pl, rc ≠ 0 → (xtGetBalance (.resp rc mc pl)).success = false ∧
      (xtGetBalance (.resp rc mc pl)).error =
        some (if mc = "" then "Failed to fetch balance" else mc)) ∧
    (∀ out, (xtGetPortfolio out).success = false → (xtGetPortfolio out).error ≠ none) ∧
    (∀ symbol q pr ty o, (placeBuyOrder symbol q pr ty o).success = false →
      (placeBuyOrder symbol q pr ty o).error ≠ none) ∧
    (∀ symbol q pr ty o, (placeSellOrder symbol q pr ty o).success = false →
      (placeSellOrder symbol q pr ty o).error ≠ none) ∧
    (∀ fb m, (bybitEnvelope fb (.thrown m)).success = false ∧
      (bybitEnvelope fb (.thrown m)).error = some (if m = "" then fb else m)) ∧
    (∀ fb rc mc, rc ≠ 0 → (bybitEnvelope fb (.resp rc mc)).success = false ∧
      (bybitEnvelope fb (.resp rc mc)).error = some (if mc = "" then fb else mc)) ∧
    (∀ fb m, (binanceCall fb (.thrown m)).success = false ∧
      (binanceCall fb (.thrown m)).error = some (if m = "" then fb else m)) ∧
    (∀ fb pr ty m, (binancePlaceOrder fb pr ty (.thrown m)).success = false ∧
      (binancePlaceOrder fb pr ty (.thrown m)).error ≠ none) ∧
    (∀ fb pr ty out, (binancePlaceOrder fb pr ty out).success = false →
      (binancePlaceOrder fb pr ty out).error ≠ none) ∧
    (∀ fb m, (kucoinEnvelope fb (.thrown m)).success = false ∧
      (kucoinEnvelope fb (.thrown m)).error = some (if m = "" then fb else m)) ∧
    (∀ fb code msg, code ≠ "200000" → (kucoinEnvelope fb (.resp code msg)).success = false ∧
      (kucoinEnvelope fb (.resp code msg)).error = some (if msg = "" then fb else msg)) ∧
    (∀ fb pr ty out, (kucoinPlaceOrder fb pr ty out).success = false →
      (kucoinPlaceOrder fb pr ty out).error ≠ none) ∧
    (∀ fb m, (bitgetEnvelope fb (.thrown m)).success = false ∧
      (bitgetEnvelope fb (.thrown m)).error = some (if m = "" then fb else m)) ∧
    (∀ fb code msg, code ≠ "00000" → (bitgetEnvelope fb (.resp code msg)).success = false ∧
      (bitgetEnvelope fb (.resp code msg)).error = some (if msg = "" then fb else msg)) ∧
    (∀ fb pr ty out, (bitgetPlaceOrder fb pr ty out).success = false →
      (bitgetPlaceOrder fb pr ty out).error ≠ none) := by
  refine ⟨?_, ?_, ?_, ?_, ?_, ?_, ?_, ?_, ?_, ?_, ?_, ?_, ?_, ?_, ?_, ?_, ?_, ?_⟩
  · intro fb m; exact ⟨rfl, rfl⟩
  · intro fb rc mc h; constructor <;> simp [xtEnvelope, h]
  · intro m; exact ⟨rfl, rfl⟩
  · intro rc mc pl h; constructor <;> simp [xtGetBalance, h]
  · intro out h
    unfold xtGetPortfolio at h ⊢
    cases out with
    | thrown m => simp [xtGetBalance]
    | resp rc mc pl =>
      by_cases hrc : rc ≠ 0
      · simp [xtGetBalance, hrc]
      · rcases pl with _ | p
        · simp [xtGetBalance, hrc] at h
        · cases p <;> simp [xtGetBalance, hrc] at h
  · intro symbol q pr ty o h
    rcases placeBuyOrder_cases symbol q pr ty o with hs | he
    · rw [h] at hs; cases hs
    · exact he
  · intro symbol q pr ty o h
    rcases placeSellOrder_cases symbol q pr ty o with hs | he
    · rw [h] at hs; cases hs
    · exact he
  · intro fb m; exact ⟨rfl, rfl⟩
  · intro fb rc mc h; constructor <;> simp [bybitEnvelope, h]
  · intro fb m; exact ⟨rfl, rfl⟩
  · intro fb pr ty m
    unfold binancePlaceOrder
    split
    · exact ⟨rfl, by simp⟩
    · exact ⟨rfl, by simp⟩
  · intro fb pr ty out h
    cases out <;> (unfold binancePlaceOrder at h ⊢; split at h <;> (try split) <;> simp_all)
  · intro fb m; exact ⟨rfl, rfl⟩
  · intro fb code msg h; constructor <;> simp [kucoinEnvelope, h]
  · intro fb pr ty out h
    cases out with
    | thrown m => unfold kucoinPlaceOrder at h ⊢; split at h <;> (try split) <;> simp_all
    | resp code msg =>
      unfold kucoinPlaceOrder at h ⊢
      split at h
      · simp_all
      · by_cases hc : code = "200000" <;> (try split) <;> simp_all
  · intro fb m; exact ⟨rfl, rfl⟩
  · intro fb code msg h; constructor <;> simp [bitgetEnvelope, h]
  · intro fb pr ty out h
    cases out with
    | thrown m => unfold bitgetPlaceOrder at h ⊢; split at h <;> (try split) <;> simp_all
    | resp code msg =>
      unfold bitgetPlaceOrder at h ⊢
      split at h
      · simp_all
      · by_cases hc : code = "00000" <;> (try split) <;> simp_all

/-- Witness for `adapterErrorEnvelope`: a non-success XT `rc` with empty
message maps to the fallback error. -/
theorem adapterErrorEnvelope_witness :
    (xtEnvelope "Failed to cancel order" (.resp 1 "")).success = false ∧
    (xtEnvelope "Failed to cancel order" (.resp 1 "")).error =
      some (if "" = "" then "Failed to cancel order" else "") := by
  exact adapterErrorEnvelope.2.1 "Failed to cancel order" 1 "" (by decide)

/-! ### The XT signature against the specification (C1) -/

/-- `lexLe` is transitive. -/
theorem lexLe_trans (a : List Char) : ∀ b c, lexLe a b = true → lexLe b c = true →
    lexLe a c = true := by
  induction a with
  | nil => intro b c _ _; rfl
  | cons x xs ih =>
    intro b c h1 h2
    cases b with
    | nil => simp [lexLe] at h1
    | cons y ys =>
      cases c with
      | nil => simp [lexLe] at h2
      | cons z zs =>
        simp only [lexLe] at h1 h2 ⊢
        rcases Nat.lt_trichotomy x.toNat y.toNat with hxy | hxy | hxy <;>
          rcases Nat.lt_trichotomy y.toNat z.toNat with hyz | hyz | hyz
        · simp [show x.toNat < z.toNat by omega]
        · simp [show x.toNat < z.toNat by omega]
        · rw [if_neg (by omega), if_pos hyz] at h2; cases h2
        · simp [show x.toNat < z.toNat by omega]
        · rw [if_neg (by omega), if_neg (by omega)] at h1
          rw [if_neg (by omega), if_neg (by omega)] at h2
          rw [if_neg (by omega), if_neg (by omega)]
          exact ih ys zs h1 h2
        · rw [if_neg (by omega), if_pos hyz] at h2; cases h2
        · rw [if_neg (by omega), if_pos hxy] at h1; cases h1
        · rw [if_neg (by omega), if_pos (by omega)] at h1; cases h1
        · rw [if_neg (by omega), if_pos hxy] at h1; cases h1

/-- `lexLe` is total. -/
theorem lexLe_total (a : List Char) : ∀ b, lexLe a b = true ∨ lexLe b a = true := by
  induction a with
  | nil => intro b; left; rfl
  | cons x xs ih =>
    intro b
    cases b with
    | nil => right; rfl
    | cons y ys =>
      simp only [lexLe]
      rcases Nat.lt_trichotomy x.toNat y.toNat with h | h | h
      · left; simp [h]
      · rw [if_neg (by omega), if_neg (by omega), if_neg (by omega), if_neg (by omega)]
        exact ih ys
      · right; simp [h]

/-- `strLe` is transitive. -/
theorem strLe_trans {a b c : String} (h1 : strLe a b = true) (h2 : strLe b c = true) :
    strLe a c = true := lexLe_trans a.data b.data c.data h1 h2

/-- `strLe` is total. -/
theorem strLe_total (a b : String) : strLe a b = true ∨ strLe b a = true :=
  lexLe_total a.data b.data

/-- The sortedness invariant of the key sort. -/
def KeySorted (l : Obj) : Prop :=
  l.Pairwise fun a b => strLe a.1 b.1 = true

/-- Membership in an insertion. -/
theorem mem_insertByKey {z x : String × Option JVal} {l : Obj} :
    z ∈ insertByKey x l ↔ z = x ∨ z ∈ l := by
  induction l with
  | nil => simp [insertByKey]
  | cons y ys ih =>
    by_cases h : strLe x.1 y.1 = true
    · simp [insertByKey, h]
    · simp [insertByKey, h, ih]
      tauto

/-- Inserting below every element is consing. -/
theorem insertByKey_eq_cons {x : String × Option JVal} {l : Obj}
    (h : ∀ z ∈ l, strLe x.1 z.1 = true) : insertByKey x l = x :: l := by
  cases l with
  | nil => rfl
  | cons y ys => simp [insertByKey, h y (by simp)]

/-- Insertion preserves sortedness. -/
theorem keySorted_insertByKey {x : String × Option JVal} {l : Obj}
    (hs : KeySorted l) : KeySorted (insertByKey x l) := by
  induction l with
  | nil => simp [insertByKey, KeySorted]
  | cons y ys ih =>
    rcases List.pairwise_cons.mp hs with ⟨hy, hys⟩
    by_cases h : strLe x.1 y.1 = true
    · have hinst : insertByKey x (y :: ys) = x :: y :: ys := by simp [insertByKey, h]
      unfold KeySorted
      rw [hinst]
      refine List.pairwise_cons.mpr ⟨?_, hs⟩
      intro z hz
      rcases hz with _ | hz
      · exact h
      · exact strLe_trans h (hy z (by assumption))
    · have hinst : insertByKey x (y :: ys) = y :: insertByKey x ys := by
        simp [insertByKey, h]
      unfold KeySorted
      rw [hinst]
      refine List.pairwise_cons.mpr ⟨?_, ih hys⟩
      intro z hz
      rcases mem_insertByKey.mp hz with hzx | hzl
      · subst hzx
        rcases strLe_total z.1 y.1 with ht | ht
        · exact absurd ht h
        · exact ht
      · exact hy z hzl

/-- The result of the key sort is sorted. -/
theorem keySorted_sortByKey (l : Obj) : KeySorted (sortByKey l) := by
  induction l with
  | nil => simp [sortByKey, KeySorted]
  | cons x xs ih => exact keySorted_insertByKey ih

/-- Insertion grows the length by one. -/
theorem insertByKey_length (x : String × Option JVal) (l : Obj) :
    (insertByKey x l).length = l.length + 1 := by
  induction l with
  | nil => rfl
  | cons y ys ih =>
    by_cases h : strLe x.1 y.1 = true <;> simp [insertByKey, h, ih]

/-- The key sort preserves length. -/
theorem sortByKey_length (l : Obj) : (sortByKey l).length = l.length := by
  induction l with
  | nil => rfl
  | cons x xs ih =>
    show (insertByKey x (sortByKey xs)).length = xs.length + 1
    rw [insertByKey_length, ih]

/-- Filtering (by a key-independent predicate) commutes with stable
insertion into a sorted list. -/
theorem filter_insertByKey (p : String × Option JVal → Bool)
    (x : String × Option JVal) (l : Obj) (hs : KeySorted l) :
    (insertByKey x l).filter p =
      if p x then insertByKey x (l.filter p) else l.filter p := by
  induction l with
  | nil => cases hpx : p x <;> simp [insertByKey, hpx]
  | cons y ys ih =>
    rcases List.pairwise_cons.mp hs with ⟨hy, hys⟩
    by_cases hxy : strLe x.1 y.1 = true
    · have hinst : insertByKey x (y :: ys) = x :: y :: ys := by simp [insertByKey, hxy]
      rw [hinst]
      cases hpx : p x with
      | false => simp [List.filter, hpx]
      | true =>
        cases hpy : p y with
        | true =>
          simp only [List.filter, hpx, hpy, if_true, ite_true]
          rw [insertByKey_eq_cons]
          intro z hz
          rcases List.mem_cons.mp hz with hzy | hz2
          · subst hzy; exact hxy
          · have hzys : z ∈ ys.filter p := hz2
            exact strLe_trans hxy (hy z (List.mem_of_mem_filter hzys))
        | false =>
          simp only [List.filter, hpx, hpy, if_true, ite_true]
          rw [insertByKey_eq_cons]
          intro z hz
          exact strLe_trans hxy (hy z (List.mem_of_mem_filter hz))
    · have hinst : insertByKey x (y :: ys) = y :: insertByKey x ys := by
        simp [insertByKey, hxy]
      rw [hinst]
      cases hpx : p x with
      | false =>
        cases hpy : p y <;>
          simp [List.filter, hpx, hpy, ih hys]
      | true =>
        cases hpy : p y with
        | true =>
          simp only [List.filter, hpy, ite_true, ih hys, hpx]
          have : insertByKey x (y :: ys.filter p) = y :: insertByKey x (ys.filter p) := by
            simp [insertByKey, hxy]
          rw [this]
        | false =>
          simp [List.filter, hpy, ih hys, hpx]

/-- Filtering commutes with the key sort. -/
theorem filter_sortByKey (p : String × Option JVal → Bool) (l : Obj) :
    (sortByKey l).filter p = sortByKey (l.filter p) := by
  induction l with
  | nil => rfl
  | cons x xs ih =>
    have hstep : sortByKey (x :: xs) = insertByKey x (sortByKey xs) := rfl
    rw [hstep, filter_insertByKey p x _ (keySorted_sortByKey xs), ih]
    cases hpx : p x with
    | true => simp [List.filter, hpx, sortByKey]
    | false => simp [List.filter, hpx, sortByKey]

/-- A string with a non-empty left part is non-empty. -/
theorem append_ne_empty_left {a : String} (b : String) (h : a ≠ "") : a ++ b ≠ "" := by
  intro hc
  apply h
  have hd := congrArg String.data hc
  rw [String.data_append] at hd
  rcases List.append_eq_nil.mp hd with ⟨ha, _⟩
  cases a with
  | mk d => rw [show d = [] from by simpa using ha]

/-- A rendered `key=value` piece is never empty (it contains `=`). -/
theorem renderKV_ne_empty (kv : String × Option JVal) : renderKV kv ≠ "" := by
  intro hc
  have hd := congrArg String.data hc
  simp [renderKV, String.data_append] at hd

/-- `joinAmp` after prepending onto the head piece. -/
theorem joinAmp_cons_append (a p : String) (ps : List String) :
    joinAmp ((a ++ "&" ++ p) :: ps) = a ++ "&" ++ joinAmp (p :: ps) := by
  cases ps with
  | nil => rfl
  | cons q qs => simp [joinAmp, String.append_assoc]

/-- The separator-accumulating fold, from a non-empty accumulator, is the
`&`-join. -/
theorem foldl_sqpPieceStep_ne (ps : List String) : ∀ acc : String, acc ≠ "" →
    ps.foldl sqpPieceStep acc = joinAmp (acc :: ps) := by
  induction ps with
  | nil => intro acc _; rfl
  | cons p ps ih =>
    intro acc hacc
    have hstep : sqpPieceStep acc p = acc ++ "&" ++ p := by
      simp [sqpPieceStep, hacc]
    rw [List.foldl_cons, hstep, ih _ (append_ne_empty_left p (append_ne_empty_left "&" hacc)),
      joinAmp_cons_append]
    rfl

/-- The separator-accumulating fold from the empty accumulator is the
`&`-join, when the pieces are `key=value` renderings. -/
theorem foldl_sqpPieceStep_pieces (l : Obj) :
    ((l.map renderKV).foldl sqpPieceStep "") = joinAmp (l.map renderKV) := by
  cases l with
  | nil => rfl
  | cons kv rest =>
    have hstep : sqpPieceStep "" (renderKV kv) = renderKV kv := by
      simp [sqpPieceStep]
    rw [List.map_cons, List.foldl_cons, hstep,
      foldl_sqpPieceStep_ne _ _ (renderKV_ne_empty kv)]

/-- The skip-`undefined` fold is the fold over the defined entries. -/
theorem foldl_sqpStep_filter (l : Obj) : ∀ acc : String,
    l.foldl sqpStep acc =
      ((l.filter fun kv => kv.2.isSome).map renderKV).foldl sqpPieceStep acc := by
  induction l with
  | nil => intro acc; rfl
  | cons kv rest ih =>
    intro acc
    rcases hv : kv.2 with _ | v
    · have h1 : sqpStep acc kv = acc := by simp [sqpStep, hv]
      simp [List.foldl_cons, h1, List.filter, hv, ih]
    · have h1 : sqpStep acc kv = sqpPieceStep acc (renderKV kv) := by
        simp [sqpStep, sqpPieceStep, renderKV, hv, String.append_assoc]
      have h2 : (kv.2).isSome = true := by simp [hv]
      simp only [List.foldl_cons, h1, List.filter, h2, List.map_cons]
      exact ih _

/-- `sortQueryParams` in the specification's form: the non-undefined
entries, key-sorted, rendered and `&`-joined. -/
theorem sortQueryParams_spec (q : Obj) :
    sortQueryParams q = joinAmp ((sortByKey (trimObject q)).map renderKV) := by
  unfold sortQueryParams trimObject
  rw [foldl_sqpStep_filter, filter_sortByKey, foldl_sqpPieceStep_pieces]

/-- The `&`-join of rendered entries is empty exactly when there are no
entries. -/
theorem joinAmp_renderKV_eq_empty (l : Obj) :
    joinAmp (l.map renderKV) = "" ↔ l = [] := by
  cases l with
  | nil => simp [joinAmp]
  | cons kv rest =>
    cases rest with
    | nil => simp [joinAmp, renderKV_ne_empty kv]
    | cons kv2 r2 =>
      simp only [List.map_cons, joinAmp]
      constructor
      · intro hc
        exact absurd hc
          (append_ne_empty_left _ (append_ne_empty_left "&" (renderKV_ne_empty kv)))
      · intro hc; cases hc

/-- The code's `queryStr` equals the specification's `queryStr`. -/
theorem queryString_eq_spec (query : Option Obj) :
    queryString query = specQueryString query := by
  cases query with
  | none => rfl
  | some q =>
    unfold queryString specQueryString
    dsimp only
    rw [sortQueryParams_spec]
    by_cases h : (trimObject q).length = 0
    · have hq : trimObject q = [] := List.eq_nil_of_length_eq_zero h
      simp [h, hq, sortByKey, joinAmp]
    · have hq : trimObject q ≠ [] := fun hc => h (by simp [hc])
      have hsne : sortByKey (trimObject q) ≠ [] := by
        intro hc
        apply hq
        have := sortByKey_length (trimObject q)
        rw [hc] at this
        exact List.eq_nil_of_length_eq_zero this.symm
      have hje : ¬ joinAmp ((sortByKey (trimObject q)).map renderKV) = "" := by
        rw [joinAmp_renderKV_eq_empty]
        exact hsne
      rw [if_pos h, show ((some q).getD [] : Obj) = q from rfl, if_neg hje]

/-- The code's `bodyStr` equals the specification's `bodyStr`. -/
theorem bodyString_eq_spec (body : Option Obj) :
    bodyString body = specBodyString body := by
  cases body with
  | none => rfl
  | some b =>
    unfold bodyString specBodyString
    by_cases h : (trimObject b).length = 0 <;> simp [h]

/-- The code's `X` string is exactly the specification's. -/
theorem buildX_eq_spec (apiKey timestamp : String) :
    buildX apiKey timestamp = specX apiKey timestamp := by
  have hd : (buildX apiKey timestamp).data = (specX apiKey timestamp).data := by
    simp [buildX, headerPairsX, joinAmp, specX, String.data_append]
  calc buildX apiKey timestamp = ⟨(buildX apiKey timestamp).data⟩ := rfl
    _ = ⟨(specX apiKey timestamp).data⟩ := by rw [hd]
    _ = specX apiKey timestamp := rfl

/-- The code's `Y` string is exactly the specification's. -/
theorem buildY_eq_spec (method path : String) (query body : Option Obj) :
    buildY method path query body = specY method path query body := by
  unfold buildY specY
  rw [queryString_eq_spec, bodyString_eq_spec]

/-- C1: the XT signature computed by `makeRequest` is the lowercase-hex
HMAC-SHA256, keyed by the secret key, of `X + Y` with `X` and `Y` exactly
as the specification words them: sorted non-undefined query params with a
`#` prefix only when non-empty, JSON body with a `#` prefix only when some
key is defined, an all-undefined query or body contributing the empty
string.  Determinism in the inputs is immediate: the signature is a pure
function of `(apiKey, secretKey, method, path, query, body, timestamp)`. -/
theorem xtSignatureSpec (apiKey secretKey method path : String)
    (query body : Option Obj) (timestamp : String) :
    makeRequestSignature apiKey secretKey method path query body timestamp =
      hmacSHA256hex secretKey
        (specX apiKey timestamp ++ specY method path query body) := by
  unfold makeRequestSignature
  rw [buildX_eq_spec, buildY_eq_spec]
